import Mathlib

/-!
Verification of the analytics engine of `gemini-cli-obs`.

This file shallowly embeds the analytics core of the repository —
`src/metrics/latency.ts` (percentile engine), `src/metrics/cost.ts`
(cost model), `src/metrics/aggregator.ts` (session aggregator and
comparator), `src/tools/record_event.ts` (budget evaluator) and
`src/tools/end_session.ts` (session close handler) — and proves the
spec's testable properties about that embedding.

Modelling conventions:
* JavaScript `number` arithmetic on character counts, token counts and
  USD figures is modelled as exact arithmetic over `ℕ` / `ℤ` / `ℚ`
  (the engine rounds every USD figure to 6 decimal places precisely to
  keep values well inside the range where float arithmetic on these
  magnitudes is exact in practice).
* `Math.ceil` / `Math.round` on nonnegative values are `Int.ceil` and
  `round` (`round x = ⌊x + 1/2⌋`, the same half-up behaviour as
  JavaScript `Math.round`).
* ISO-8601 timestamps are modelled as integer epoch milliseconds; the
  difference of two parsed dates is integer subtraction.
* JavaScript `Map` is modelled as an association list: `set` on an
  existing key updates in place, a new key is appended — exactly the
  iteration-order semantics of `Map`.
* SQL result sets that the code consumes in insertion order
  (`ORDER BY recorded_at ASC` over rows whose `recorded_at` values are
  assigned monotonically at insert time) are modelled as filters over
  the append-only event list.
* Human-readable warning/result strings are modelled as structured
  values carrying the same data (message layout is presentation only).
-/

namespace Obs

/-! ### Percentile engine — `src/metrics/latency.ts` -/

/-- Result shape of `computePercentiles`. -/
structure PercentileStats where
  p50Ms : ℕ
  p75Ms : ℕ
  p95Ms : ℕ
  p99Ms : ℕ
  minMs : ℕ
  maxMs : ℕ
  meanMs : ℤ
  sampleCount : ℕ
deriving Repr, DecidableEq

/-- `[...durationsMs].sort((a, b) => a - b)`: ascending sort. -/
def sortedAsc (l : List ℕ) : List ℕ := List.insertionSort (· ≤ ·) l

/-- The clamped nearest-rank index
`clamp(ceil(p/100 * n) - 1, 0, n - 1)`. -/
def clampIdx (p : ℕ) (n : ℕ) : ℕ :=
  (max 0 (min ((n : ℤ) - 1) (⌈((p : ℚ) / 100) * (n : ℚ)⌉ - 1))).toNat

/-- The inner `percentile(p)` closure of `computePercentiles`
(including its `n === 1` special case). -/
def nearestRank (sorted : List ℕ) (p : ℕ) : ℕ :=
  let n := sorted.length
  if n = 1 then sorted.getD 0 0
  else sorted.getD (clampIdx p n) 0

/-- `computePercentiles(durationsMs)`: `null` on an empty input,
otherwise nearest-rank percentiles over the ascending-sorted samples. -/
def computePercentiles (durationsMs : List ℕ) : Option PercentileStats :=
  if durationsMs.length = 0 then none
  else
    let sorted := sortedAsc durationsMs
    let n := sorted.length
    some
      { p50Ms := nearestRank sorted 50
        p75Ms := nearestRank sorted 75
        p95Ms := nearestRank sorted 95
        p99Ms := nearestRank sorted 99
        minMs := sorted.getD 0 0
        maxMs := sorted.getD (n - 1) 0
        meanMs := round ((sorted.sum : ℚ) / (n : ℚ))
        sampleCount := n }

/-- One row of `computeToolLatencyStats` input
(`{ tool_name, duration_ms, error }`; `error` is the 0/1 flag the SQL
`CASE WHEN e.error_message IS NOT NULL` produces). -/
structure ToolRow where
  tool_name : String
  duration_ms : ℕ
  error : ℕ
deriving Repr, DecidableEq

/-- Per-tool latency summary. -/
structure ToolLatencyStats where
  toolName : String
  stats : PercentileStats
  errorRate : ℚ
  callCount : ℕ
deriving Repr, DecidableEq

/-- One `grouped.set(...)` round of the grouping loop: push the row's
duration onto its tool's bucket (bumping the error counter when
`row.error` is truthy), appending a fresh bucket for a new tool. -/
def addRow : List (String × List ℕ × ℕ) → ToolRow → List (String × List ℕ × ℕ)
  | [], r => [(r.tool_name, ([r.duration_ms], if r.error ≠ 0 then 1 else 0))]
  | (k, (ds, es)) :: t, r =>
    if k = r.tool_name then
      (k, (ds ++ [r.duration_ms], if r.error ≠ 0 then es + 1 else es)) :: t
    else (k, (ds, es)) :: addRow t r

/-- The grouping `Map` built by `computeToolLatencyStats`. -/
def groupRows (rows : List ToolRow) : List (String × List ℕ × ℕ) :=
  rows.foldl addRow []

/-- `computeToolLatencyStats(rows)`: group by tool name, compute
percentiles per group, attach error rate, sort by call count
descending (stable). -/
def computeToolLatencyStats (rows : List ToolRow) : List ToolLatencyStats :=
  let results := (groupRows rows).filterMap fun g =>
    match computePercentiles g.2.1 with
    | none => none
    | some st =>
      some { toolName := g.1
             stats := st
             errorRate := if 0 < g.2.1.length then (g.2.2 : ℚ) / (g.2.1.length : ℚ) else 0
             callCount := g.2.1.length }
  List.insertionSort (fun a b => b.callCount ≤ a.callCount) results

/-- `p95DeltaPct(baseline, compare)`: percentage change with a
zero-baseline guard. -/
def p95DeltaPctFn (baseline compare : ℚ) : ℚ :=
  if baseline = 0 then 0 else (compare - baseline) / baseline * 100

/-! ### Cost model — `src/metrics/cost.ts` -/

/-- A pricing tier (USD per 1M tokens). -/
structure PricingTier where
  inputPer1M : ℚ
  outputPer1M : ℚ
deriving Repr, DecidableEq

/-- `PRICING['gemini-2.5-pro']` (the default environment values). -/
def proPricing : PricingTier := { inputPer1M := 0.075, outputPer1M := 0.30 }

/-- `PRICING['gemini-2.5-flash']` (the default environment values). -/
def flashPricing : PricingTier := { inputPer1M := 0.0375, outputPer1M := 0.15 }

/-- `startsWithL pat s`: does `s` start with `pat`? -/
def startsWithL : List Char → List Char → Bool
  | [], _ => true
  | _ :: _, [] => false
  | p :: ps, c :: cs => p = c && startsWithL ps cs

/-- `containsL pat s`: does `pat` occur as a contiguous run of `s`?
(JavaScript `String.prototype.includes`.) -/
def containsL (pat : List Char) : List Char → Bool
  | [] => startsWithL pat []
  | c :: cs => startsWithL pat (c :: cs) || containsL pat cs

/-- `model.includes('flash')`. -/
def containsFlash (m : String) : Bool := containsL "flash".data m.data

/-- `pricingFor(model)`: `!model` (null or empty) falls back to pro,
identifiers containing `"flash"` resolve to the flash tier, everything
else to pro. -/
def pricingFor (model : Option String) : PricingTier :=
  match model with
  | none => proPricing
  | some m => if m = "" then proPricing
              else if containsFlash m then flashPricing else proPricing

/-- `estimateTokens(chars) = Math.ceil(chars / 4)`. -/
def estimateTokens (chars : ℕ) : ℕ := (⌈(chars : ℚ) / 4⌉).toNat

/-- `roundUsd(value)`: round to 6 decimal places. -/
def roundUsd (v : ℚ) : ℚ := ((round (v * 1000000) : ℤ) : ℚ) / 1000000

/-- One row of `computeCost` input
(`{ prompt_chars, response_chars, model }`). -/
structure LlmRow where
  prompt_chars : Option ℕ
  response_chars : Option ℕ
  model : Option String
deriving Repr, DecidableEq

/-- The model of a row as the counting loop sees it: `if (row.model)`
skips both null and the empty string. -/
def modelOf (r : LlmRow) : Option String :=
  match r.model with
  | none => none
  | some m => if m = "" then none else some m

/-- The (truthy) model identifiers of the rows, in row order. -/
def modelsOf (rows : List LlmRow) : List String := rows.filterMap modelOf

/-- `modelCounts.set(model, (modelCounts.get(model) ?? 0) + 1)` on the
association-list model of the `Map`. -/
def bump : List (String × ℕ) → String → List (String × ℕ)
  | [], m => [(m, 1)]
  | (k, c) :: t, m => if k = m then (k, c + 1) :: t else (k, c) :: bump t m

/-- The per-model occurrence counts accumulated by the row loop of
`computeCost` (rows without a truthy model are skipped). -/
def countsOf (ms : List String) : List (String × ℕ) := ms.foldl bump []

/-- The dominant-model selection loop: walk the `Map` entries in
insertion order keeping the first entry whose count strictly exceeds
the best so far. -/
def pickGo : Option String → ℕ → List (String × ℕ) → Option String
  | best, _, [] => best
  | best, bc, (m, c) :: t => if bc < c then pickGo (some m) c t else pickGo best bc t

/-- The dominant model `computeCost` resolves pricing from. -/
def dominantModel (rows : List LlmRow) : Option String :=
  pickGo none 0 (countsOf (modelsOf rows))

/-- `totalPromptChars`: sum of `row.prompt_chars ?? 0`. -/
def sumPromptChars (rows : List LlmRow) : ℕ :=
  rows.foldl (fun acc r => acc + r.prompt_chars.getD 0) 0

/-- `totalResponseChars`: sum of `row.response_chars ?? 0`. -/
def sumResponseChars (rows : List LlmRow) : ℕ :=
  rows.foldl (fun acc r => acc + r.response_chars.getD 0) 0

/-- Output shape of `computeCost`. -/
structure CostBreakdown where
  estimatedInputTokens : ℕ
  estimatedOutputTokens : ℕ
  estimatedTotalTokens : ℕ
  inputCostUsd : ℚ
  outputCostUsd : ℚ
  totalCostUsd : ℚ
  modelUsed : Option String
deriving Repr, DecidableEq

/-- `computeCost(llmRows)`. -/
def computeCost (llmRows : List LlmRow) : CostBreakdown :=
  let dominant := dominantModel llmRows
  let pricing := pricingFor dominant
  let inputTokens := estimateTokens (sumPromptChars llmRows)
  let outputTokens := estimateTokens (sumResponseChars llmRows)
  let inputCost := ((inputTokens : ℚ) / 1000000) * pricing.inputPer1M
  let outputCost := ((outputTokens : ℚ) / 1000000) * pricing.outputPer1M
  { estimatedInputTokens := inputTokens
    estimatedOutputTokens := outputTokens
    estimatedTotalTokens := inputTokens + outputTokens
    inputCostUsd := roundUsd inputCost
    outputCostUsd := roundUsd outputCost
    totalCostUsd := roundUsd (inputCost + outputCost)
    modelUsed := dominant }

/-! ### Evaluation lemmas

Rational floor/ceil/round expressions rewritten into natural-number
divisions, so that concrete instances reduce by `decide` / `norm_num`. -/

theorem ceil_natCast_div_eval (a b : ℕ) (hb : 0 < b) :
    ⌈(a : ℚ) / (b : ℚ)⌉ = (((a + b - 1) / b : ℕ) : ℤ) := by
  have hbq : (0 : ℚ) < (b : ℚ) := by exact_mod_cast hb
  obtain ⟨t, ht⟩ : ∃ t, t = b * ((a + b - 1) / b) := ⟨_, rfl⟩
  have h0 := Nat.div_add_mod (a + b - 1) b
  rw [← ht] at h0
  have hmod := Nat.mod_lt (a + b - 1) hb
  have hA : a ≤ t := by omega
  have hB : t < a + b := by omega
  rw [ht] at hA hB
  rw [Int.ceil_eq_iff]
  constructor
  · rw [lt_div_iff₀ hbq]
    have hBq : (b : ℚ) * (((((a + b - 1) / b : ℕ) : ℤ)) : ℚ) < (a : ℚ) + b := by
      exact_mod_cast hB
    linarith
  · rw [div_le_iff₀ hbq]
    have hAq : (a : ℚ) ≤ (b : ℚ) * (((((a + b - 1) / b : ℕ) : ℤ)) : ℚ) := by
      exact_mod_cast hA
    linarith

theorem estimateTokens_eval (c : ℕ) : estimateTokens c = (c + 3) / 4 := by
  unfold estimateTokens
  rw [show ((4 : ℚ)) = ((4 : ℕ) : ℚ) by norm_num, ceil_natCast_div_eval c 4 (by norm_num)]
  omega

theorem clampIdx_eval (p n : ℕ) (hp : 0 < p) (hn : 0 < n) :
    clampIdx p n = min (n - 1) ((p * n + 99) / 100 - 1) := by
  unfold clampIdx
  have hcast : ((p : ℚ) / 100) * (n : ℚ) = ((p * n : ℕ) : ℚ) / ((100 : ℕ) : ℚ) := by
    push_cast; ring
  rw [hcast, ceil_natCast_div_eval _ _ (by norm_num)]
  have hm : 1 ≤ p * n := Nat.one_le_iff_ne_zero.mpr (Nat.mul_ne_zero hp.ne' hn.ne')
  obtain ⟨m, hm'⟩ : ∃ m, m = p * n := ⟨_, rfl⟩
  rw [← hm'] at hm ⊢
  omega

theorem round_natCast_div_eval (s n : ℕ) (hn : 0 < n) :
    round ((s : ℚ) / (n : ℚ)) = (((2 * s + n) / (2 * n) : ℕ) : ℤ) := by
  have hnq : ((n : ℚ)) ≠ 0 := by exact_mod_cast hn.ne'
  rw [round_eq, show (s : ℚ) / (n : ℚ) + 1 / 2 = ((2 * s + n : ℕ) : ℚ) / ((2 * n : ℕ) : ℚ) by
    push_cast; field_simp; ring]
  exact_mod_cast Rat.floor_natCast_div_natCast (2 * s + n) (2 * n)

theorem roundUsd_natCast_div_eval (a b : ℕ) (hb : 0 < b) :
    roundUsd ((a : ℚ) / (b : ℚ)) =
      (((2000000 * a + b) / (2 * b) : ℕ) : ℚ) / 1000000 := by
  unfold roundUsd
  rw [show (a : ℚ) / (b : ℚ) * 1000000 = ((1000000 * a : ℕ) : ℚ) / ((b : ℕ) : ℚ) by
    push_cast; ring, round_natCast_div_eval _ _ hb,
    show 2 * (1000000 * a) + b = 2000000 * a + b from by ring]
  congr 1

theorem roundUsd_intCast_div (z : ℤ) :
    roundUsd ((z : ℚ) / 1000000) = (z : ℚ) / 1000000 := by
  unfold roundUsd
  rw [div_mul_cancel₀ _ (by norm_num : (1000000 : ℚ) ≠ 0), round_intCast]

/-! ### Comparator — `src/metrics/aggregator.ts` -/

/-- The slice of a `SessionSummary` the comparator and the claims
consume. Timestamps are epoch milliseconds. -/
structure SessionSummary where
  sessionId : String
  label : Option String
  startedAt : ℤ
  endedAt : Option ℤ
  durationMs : Option ℤ
  toolCallCount : ℕ
  llmRequestCount : ℕ
  errorCount : ℕ
  uniqueToolsUsed : List String
  cost : CostBreakdown
  overallLatency : Option PercentileStats
  toolBreakdown : List ToolLatencyStats
deriving Repr, DecidableEq

/-- Regression severity. -/
inductive Severity where
  | warning
  | critical
deriving Repr, DecidableEq

/-- One regression flag. -/
structure RegressionFlag where
  metric : String
  baselineValue : ℚ
  compareValue : ℚ
  deltaPct : ℚ
  severity : Severity
deriving Repr, DecidableEq

/-- The result shape of `compareSessionSummaries`. -/
structure SessionComparison where
  baselineSessionId : String
  compareSessionId : String
  baselineLabel : Option String
  compareLabel : Option String
  costDeltaUsd : ℚ
  costDeltaPct : ℚ
  durationDeltaMs : Option ℤ
  durationDeltaPct : Option ℚ
  toolCallDelta : ℤ
  p95LatencyDeltaMs : Option ℤ
  p95LatencyDeltaPct : Option ℚ
  regressions : List RegressionFlag
deriving Repr, DecidableEq

/-- `Math.round(x * 10) / 10`: round to one decimal place. -/
def round1 (v : ℚ) : ℚ := ((round (v * 10) : ℤ) : ℚ) / 10

/-- `costDelta = compare.cost.totalCostUsd - baseline.cost.totalCostUsd`. -/
def costDeltaRaw (baseline compare : SessionSummary) : ℚ :=
  compare.cost.totalCostUsd - baseline.cost.totalCostUsd

/-- `costDeltaPct`: percentage against the baseline cost, `0` when the
baseline cost is not positive. -/
def costDeltaPctRaw (baseline compare : SessionSummary) : ℚ :=
  if 0 < baseline.cost.totalCostUsd then
    costDeltaRaw baseline compare / baseline.cost.totalCostUsd * 100
  else 0

/-- `durationDelta`: non-null only when both durations are known. -/
def durationDeltaRaw (baseline compare : SessionSummary) : Option ℤ :=
  match baseline.durationMs, compare.durationMs with
  | some b, some c => some (c - b)
  | _, _ => none

/-- `durationDeltaPct`: non-null only when both durations are known and
the baseline duration is strictly positive. -/
def durationDeltaPctRaw (baseline compare : SessionSummary) : Option ℚ :=
  match baseline.durationMs, compare.durationMs with
  | some b, some c => if 0 < b then some ((((c - b) : ℤ) : ℚ) / (b : ℚ) * 100) else none
  | _, _ => none

/-- `p95Delta`: non-null only when both sessions have overall latency. -/
def p95DeltaRaw (baseline compare : SessionSummary) : Option ℤ :=
  match baseline.overallLatency, compare.overallLatency with
  | some b, some c => some ((c.p95Ms : ℤ) - (b.p95Ms : ℤ))
  | _, _ => none

/-- `p95DeltaPctVal`: `p95DeltaPct(baseP95, cmpP95)` when both sides
have latency statistics. -/
def p95DeltaPctRaw (baseline compare : SessionSummary) : Option ℚ :=
  match baseline.overallLatency, compare.overallLatency with
  | some b, some c => some (p95DeltaPctFn (b.p95Ms : ℚ) (c.p95Ms : ℚ))
  | _, _ => none

/-- `maybeFlag(metric, baseVal, cmpVal, deltaPct)`: push a critical flag
above 50%, a warning above 20%, nothing otherwise. -/
def maybeFlag (metric : String) (baseVal cmpVal deltaPct : ℚ) : List RegressionFlag :=
  if 50 < deltaPct then
    [{ metric := metric, baselineValue := baseVal, compareValue := cmpVal,
       deltaPct := deltaPct, severity := .critical }]
  else if 20 < deltaPct then
    [{ metric := metric, baselineValue := baseVal, compareValue := cmpVal,
       deltaPct := deltaPct, severity := .warning }]
  else []

/-- The cost flag push: guarded by `costDeltaPct > 0`. -/
def costFlags (baseline compare : SessionSummary) : List RegressionFlag :=
  if 0 < costDeltaPctRaw baseline compare then
    maybeFlag "cost_usd" baseline.cost.totalCostUsd compare.cost.totalCostUsd
      (costDeltaPctRaw baseline compare)
  else []

/-- The duration flag push: guarded by
`durationDeltaPct !== null && durationDeltaPct > 0 && baseline.durationMs`
(the last conjunct is JavaScript truthiness: non-null and nonzero). -/
def durationFlags (baseline compare : SessionSummary) : List RegressionFlag :=
  match durationDeltaPctRaw baseline compare, baseline.durationMs with
  | some dp, some bd =>
    if 0 < dp ∧ bd ≠ 0 then
      maybeFlag "session_duration_ms" (bd : ℚ) ((compare.durationMs.getD 0 : ℤ) : ℚ) dp
    else []
  | _, _ => []

/-- The p95 flag push: guarded by availability on both sides and
positivity of the delta percentage. -/
def p95Flags (baseline compare : SessionSummary) : List RegressionFlag :=
  match p95DeltaPctRaw baseline compare, baseline.overallLatency, compare.overallLatency with
  | some pp, some b, some c =>
    if 0 < pp then maybeFlag "p95_tool_latency_ms" (b.p95Ms : ℚ) (c.p95Ms : ℚ) pp else []
  | _, _, _ => []

/-- The `regressions` list assembled by `compareSessionSummaries`
(cost, then duration, then p95 pushes). -/
def regressionsOf (baseline compare : SessionSummary) : List RegressionFlag :=
  costFlags baseline compare ++ durationFlags baseline compare ++ p95Flags baseline compare

/-- `compareSessionSummaries(baseline, compare)`. -/
def compareSessionSummaries (baseline compare : SessionSummary) : SessionComparison :=
  { baselineSessionId := baseline.sessionId
    compareSessionId := compare.sessionId
    baselineLabel := baseline.label
    compareLabel := compare.label
    costDeltaUsd := roundUsd (costDeltaRaw baseline compare)
    costDeltaPct := round1 (costDeltaPctRaw baseline compare)
    durationDeltaMs := durationDeltaRaw baseline compare
    durationDeltaPct := (durationDeltaPctRaw baseline compare).map round1
    toolCallDelta := (compare.toolCallCount : ℤ) - (baseline.toolCallCount : ℤ)
    p95LatencyDeltaMs := p95DeltaRaw baseline compare
    p95LatencyDeltaPct := (p95DeltaPctRaw baseline compare).map round1
    regressions := regressionsOf baseline compare }

/-! ### Event store — `src/db/queries/{sessions,events}.ts`

The SQLite store is modelled as in-memory lists; the prepared queries
become pure functions over those lists. -/

/-- Event kinds (`src/types/events.ts`). -/
inductive EventType where
  | SESSION_START
  | SESSION_END
  | TOOL_START
  | TOOL_END
  | LLM_REQUEST
  | LLM_RESPONSE
  | ERROR
  | BUDGET_WARNING
deriving Repr, DecidableEq

/-- A row of the `sessions` table. -/
structure Session where
  id : String
  label : Option String
  model : Option String
  started_at : ℤ
  ended_at : Option ℤ
deriving Repr, DecidableEq

/-- A row of the `events` table. -/
structure Event where
  id : String
  session_id : String
  event_type : EventType
  tool_name : Option String
  model : Option String
  prompt_chars : Option ℕ
  response_chars : Option ℕ
  duration_ms : Option ℕ
  error_message : Option String
  recorded_at : ℤ
deriving Repr, DecidableEq

/-- The database state: a sessions table and the append-only events
log (insertion order coincides with `recorded_at` order). -/
structure DB where
  sessions : List Session
  events : List Event
deriving Repr, DecidableEq

/-- `SELECT * FROM sessions WHERE id = ?` (`id` is a primary key). -/
def getById (db : DB) (sid : String) : Option Session :=
  db.sessions.find? (fun s => s.id = sid)

/-- `UPDATE sessions SET ended_at = ? WHERE id = ?`. -/
def endSession (db : DB) (sid : String) (endedAt : ℤ) : DB :=
  { db with sessions :=
      db.sessions.map fun s => if s.id = sid then { s with ended_at := some endedAt } else s }

/-- `INSERT INTO events ...` (append-only). -/
def insertEvent (db : DB) (e : Event) : DB :=
  { db with events := db.events ++ [e] }

/-- `toolDurations(sessionId)`: TOOL_END rows of the session carrying
both a tool name and a duration, in recorded order. -/
def toolDurations (db : DB) (sid : String) : List (String × ℕ) :=
  db.events.filterMap fun e =>
    if e.session_id = sid ∧ e.event_type = .TOOL_END then
      match e.tool_name, e.duration_ms with
      | some t, some d => some (t, d)
      | _, _ => none
    else none

/-- `llmChars(sessionId)`: prompt/response character rows of the
session's LLM_REQUEST / LLM_RESPONSE events. -/
def llmChars (db : DB) (sid : String) : List LlmRow :=
  db.events.filterMap fun e =>
    if e.session_id = sid ∧ (e.event_type = .LLM_REQUEST ∨ e.event_type = .LLM_RESPONSE) then
      some { prompt_chars := e.prompt_chars, response_chars := e.response_chars,
             model := e.model }
    else none

/-- `countByType(sessionId, eventType)`. -/
def countByType (db : DB) (sid : String) (ty : EventType) : ℕ :=
  (db.events.filter fun e => e.session_id = sid ∧ e.event_type = ty).length

/-- `errorCount(sessionId)`: count of ERROR events. -/
def errorCountOf (db : DB) (sid : String) : ℕ :=
  (db.events.filter fun e => e.session_id = sid ∧ e.event_type = .ERROR).length

/-- `SELECT DISTINCT tool_name ... WHERE tool_name IS NOT NULL`
(first-occurrence order). -/
def uniqueToolsOf (db : DB) (sid : String) : List String :=
  (db.events.filterMap fun e =>
    if e.session_id = sid then e.tool_name else none).foldl
    (fun acc t => if t ∈ acc then acc else acc ++ [t]) []

/-! ### Session aggregator — `buildSessionSummary` -/

/-- `buildSessionSummary(db, sessionId)`: `null` when the session does
not exist, otherwise the full derived summary. The per-tool rows are
annotated with `error: 0` (session-scoped duration rows carry no error
flag). -/
def buildSessionSummary (db : DB) (sessionId : String) : Option SessionSummary :=
  match getById db sessionId with
  | none => none
  | some session =>
    let llmRows := llmChars db sessionId
    let toolDur := toolDurations db sessionId
    let cost := computeCost llmRows
    let allDurations := toolDur.map (fun r => r.2)
    let overallLatency := computePercentiles allDurations
    let allToolRows := toolDur.map fun r =>
      { tool_name := r.1, duration_ms := r.2, error := 0 : ToolRow }
    let toolBreakdown := computeToolLatencyStats allToolRows
    let durationMs :=
      match session.ended_at with
      | some e => some (e - session.started_at)
      | none => none
    some
      { sessionId := session.id
        label := session.label
        startedAt := session.started_at
        endedAt := session.ended_at
        durationMs := durationMs
        toolCallCount := countByType db sessionId .TOOL_END
        llmRequestCount := countByType db sessionId .LLM_REQUEST
        errorCount := errorCountOf db sessionId
        uniqueToolsUsed := uniqueToolsOf db sessionId
        cost := cost
        overallLatency := overallLatency
        toolBreakdown := toolBreakdown }

/-! ### End-session handler — `src/tools/end_session.ts`

The handler's human-readable return strings are modelled as a result
enum carrying the data they embed; `now` (the wall clock) and the
generated event id are inputs. -/

/-- Outcome of `handleEndSession`. -/
inductive EndResult where
  | notFound
  | alreadyEnded (endedAt : ℤ)
  | ended
deriving Repr, DecidableEq

/-- `handleEndSession(input, db)`: refuse unknown ids, refuse
already-ended sessions without mutating, otherwise set `ended_at` and
append a SESSION_END event in one transaction. -/
def handleEndSession (now : ℤ) (eventId : String) (db : DB) (sid : String) :
    DB × EndResult :=
  match getById db sid with
  | none => (db, .notFound)
  | some session =>
    match session.ended_at with
    | some t => (db, .alreadyEnded t)
    | none =>
      let db1 := endSession db sid now
      let db2 := insertEvent db1
        { id := eventId, session_id := sid, event_type := .SESSION_END,
          tool_name := none, model := none, prompt_chars := none,
          response_chars := none, duration_ms := none, error_message := none,
          recorded_at := now }
      (db2, .ended)

/-! ### Budget evaluator — `checkBudget` in `src/tools/record_event.ts`

The two store reads (`llmChars(sessionId)` and `dailyLlmChars(today)`)
are passed in as arguments; the returned warning strings are modelled
as a structured value carrying the cost and the cap they mention. -/

/-- The singleton budget configuration record. -/
structure BudgetConfig where
  max_per_session_usd : ℚ
  max_per_day_usd : ℚ
  alert_threshold_pct : ℚ
deriving Repr, DecidableEq

/-- A budget warning: which cap fired, at which cost. -/
inductive BudgetWarning where
  | session (cost cap : ℚ)
  | daily (cost cap : ℚ)
deriving Repr, DecidableEq

/-- `checkBudget`: nothing when both caps are disabled; otherwise the
per-session check first (returning immediately when it fires), then the
per-day check over the day's summed prompt/response characters fed to
`computeCost` as two synthetic rows. -/
def checkBudget (config : BudgetConfig) (sessionRows : List LlmRow)
    (dailyChars : ℕ × ℕ) : Option BudgetWarning :=
  if config.max_per_session_usd ≤ 0 ∧ config.max_per_day_usd ≤ 0 then none
  else
    let sessionCost := computeCost sessionRows
    if 0 < config.max_per_session_usd ∧
        config.max_per_session_usd * (config.alert_threshold_pct / 100) ≤
          sessionCost.totalCostUsd then
      some (.session sessionCost.totalCostUsd config.max_per_session_usd)
    else if 0 < config.max_per_day_usd then
      let dailyCost := computeCost
        [{ prompt_chars := some dailyChars.1, response_chars := none, model := none },
         { prompt_chars := none, response_chars := some dailyChars.2, model := none }]
      if config.max_per_day_usd * (config.alert_threshold_pct / 100) ≤
          dailyCost.totalCostUsd then
        some (.daily dailyCost.totalCostUsd config.max_per_day_usd)
      else none
    else none

/-! ### Helper lemmas about rounding and flags -/

theorem roundUsd_zero : roundUsd 0 = 0 := by
  unfold roundUsd
  norm_num

theorem round1_zero : round1 0 = 0 := by
  unfold round1
  norm_num

theorem p95DeltaPctFn_self (x : ℚ) : p95DeltaPctFn x x = 0 := by
  unfold p95DeltaPctFn
  split <;> simp

theorem costFlags_self (s : SessionSummary) : costFlags s s = [] := by
  unfold costFlags costDeltaPctRaw costDeltaRaw
  split
  · split <;> simp_all
  · rfl

theorem durationFlags_self (s : SessionSummary) : durationFlags s s = [] := by
  unfold durationFlags
  cases hd : s.durationMs with
  | none => simp [durationDeltaPctRaw, hd]
  | some b =>
    have hdp : durationDeltaPctRaw s s = if 0 < b then some (0 : ℚ) else none := by
      simp [durationDeltaPctRaw, hd]
    by_cases hb : 0 < b
    · simp [hdp, hd, hb]
    · simp [hdp, hd, hb]

theorem p95Flags_self (s : SessionSummary) : p95Flags s s = [] := by
  unfold p95Flags
  cases hl : s.overallLatency with
  | none => simp [p95DeltaPctRaw, hl]
  | some st =>
    have hpp : p95DeltaPctRaw s s = some 0 := by
      simp [p95DeltaPctRaw, hl, p95DeltaPctFn_self]
    simp [hpp, hl]

theorem maybeFlag_of_le20 (m : String) (bv cv dp : ℚ) (h : dp ≤ 20) :
    maybeFlag m bv cv dp = [] := by
  unfold maybeFlag
  rw [if_neg (by linarith), if_neg (by linarith)]

theorem maybeFlag_warning (m : String) (bv cv dp : ℚ) (h1 : 20 < dp) (h2 : dp ≤ 50) :
    maybeFlag m bv cv dp =
      [{ metric := m, baselineValue := bv, compareValue := cv,
         deltaPct := dp, severity := .warning }] := by
  unfold maybeFlag
  rw [if_neg (by linarith), if_pos h1]

theorem maybeFlag_critical (m : String) (bv cv dp : ℚ) (h : 50 < dp) :
    maybeFlag m bv cv dp =
      [{ metric := m, baselineValue := bv, compareValue := cv,
         deltaPct := dp, severity := .critical }] := by
  unfold maybeFlag
  rw [if_pos h]

theorem maybeFlag_metric (m : String) (bv cv dp : ℚ) :
    ∀ f ∈ maybeFlag m bv cv dp, f.metric = m := by
  unfold maybeFlag
  split_ifs <;> intro f hf <;> simp at hf <;> simp [hf]

theorem costFlags_metric (b c : SessionSummary) :
    ∀ f ∈ costFlags b c, f.metric = "cost_usd" := by
  unfold costFlags
  intro f hf
  split at hf
  · exact maybeFlag_metric _ _ _ _ f hf
  · simp at hf

theorem durationFlags_metric (b c : SessionSummary) :
    ∀ f ∈ durationFlags b c, f.metric = "session_duration_ms" := by
  unfold durationFlags
  intro f hf
  split at hf
  · split at hf
    · exact maybeFlag_metric _ _ _ _ f hf
    · simp at hf
  · simp at hf

theorem p95Flags_metric (b c : SessionSummary) :
    ∀ f ∈ p95Flags b c, f.metric = "p95_tool_latency_ms" := by
  unfold p95Flags
  intro f hf
  split at hf
  · split at hf
    · exact maybeFlag_metric _ _ _ _ f hf
    · simp at hf
  · simp at hf

theorem regressions_filter_cost (b c : SessionSummary) :
    (regressionsOf b c).filter (fun f => f.metric = "cost_usd") = costFlags b c := by
  unfold regressionsOf
  rw [List.filter_append, List.filter_append,
    List.filter_eq_self.mpr (fun f hf => by simp [costFlags_metric b c f hf]),
    List.filter_eq_nil_iff.mpr (fun f hf => by simp [durationFlags_metric b c f hf]),
    List.filter_eq_nil_iff.mpr (fun f hf => by simp [p95Flags_metric b c f hf])]
  simp

theorem regressions_filter_duration (b c : SessionSummary) :
    (regressionsOf b c).filter (fun f => f.metric = "session_duration_ms") =
      durationFlags b c := by
  unfold regressionsOf
  rw [List.filter_append, List.filter_append,
    List.filter_eq_nil_iff.mpr (fun f hf => by simp [costFlags_metric b c f hf]),
    List.filter_eq_self.mpr (fun f hf => by simp [durationFlags_metric b c f hf]),
    List.filter_eq_nil_iff.mpr (fun f hf => by simp [p95Flags_metric b c f hf])]
  simp

theorem regressions_filter_p95 (b c : SessionSummary) :
    (regressionsOf b c).filter (fun f => f.metric = "p95_tool_latency_ms") =
      p95Flags b c := by
  unfold regressionsOf
  rw [List.filter_append, List.filter_append,
    List.filter_eq_nil_iff.mpr (fun f hf => by simp [costFlags_metric b c f hf]),
    List.filter_eq_nil_iff.mpr (fun f hf => by simp [durationFlags_metric b c f hf]),
    List.filter_eq_self.mpr (fun f hf => by simp [p95Flags_metric b c f hf])]
  simp

theorem durationDeltaPctRaw_pos (b c : SessionSummary) (v : ℚ) (bd : ℤ)
    (h : durationDeltaPctRaw b c = some v) (hbd : b.durationMs = some bd) : 0 < bd := by
  unfold durationDeltaPctRaw at h
  rw [hbd] at h
  by_cases hb : 0 < bd
  · exact hb
  · cases hc : c.durationMs with
    | none => rw [hc] at h; simp at h
    | some cd => rw [hc] at h; simp [hb] at h

/-! ### Example data used by witnesses -/

/-- A session summary with a given total cost and no duration or
latency data. -/
def summaryWithCost (id : String) (t : ℚ) : SessionSummary :=
  { sessionId := id, label := none, startedAt := 0, endedAt := none, durationMs := none,
    toolCallCount := 0, llmRequestCount := 0, errorCount := 0, uniqueToolsUsed := [],
    cost := { estimatedInputTokens := 0, estimatedOutputTokens := 0,
              estimatedTotalTokens := 0, inputCostUsd := 0, outputCostUsd := 0,
              totalCostUsd := t, modelUsed := none },
    overallLatency := none, toolBreakdown := [] }

/-- A session summary with cost, duration and latency data. -/
def summaryFull : SessionSummary :=
  { sessionId := "full", label := some "baseline run", startedAt := 0,
    endedAt := some 1000, durationMs := some 1000,
    toolCallCount := 2, llmRequestCount := 1, errorCount := 0, uniqueToolsUsed := ["bash"],
    cost := { estimatedInputTokens := 1000, estimatedOutputTokens := 200,
              estimatedTotalTokens := 1200, inputCostUsd := 0.000075,
              outputCostUsd := 0.00006, totalCostUsd := 0.000135,
              modelUsed := some "gemini-2.5-pro" },
    overallLatency := some { p50Ms := 10, p75Ms := 10, p95Ms := 10, p99Ms := 10,
                             minMs := 10, maxMs := 10, meanMs := 10, sampleCount := 1 },
    toolBreakdown := [] }

/-! ### Claim theorems -/

/-- Claim C2: a session with one LLM row of 4000 prompt characters and
800 response characters, under default (pro) pricing, yields 1000 input
tokens, 200 output tokens, input cost $0.000075, output cost $0.00006,
and total cost $0.000135. -/
theorem claim_C2_cost_scenario :
    computeCost [{ prompt_chars := some 4000, response_chars := some 800, model := none }] =
      { estimatedInputTokens := 1000, estimatedOutputTokens := 200,
        estimatedTotalTokens := 1200, inputCostUsd := 0.000075,
        outputCostUsd := 0.00006, totalCostUsd := 0.000135, modelUsed := none } := by
  have hdom : dominantModel [⟨some 4000, some 800, none⟩] = none := rfl
  unfold computeCost
  rw [hdom, show sumPromptChars [⟨some 4000, some 800, none⟩] = 4000 from rfl,
    show sumResponseChars [⟨some 4000, some 800, none⟩] = 800 from rfl,
    estimateTokens_eval, estimateTokens_eval]
  norm_num [pricingFor, proPricing]
  refine ⟨?_, ?_, ?_⟩
  · rw [show (3 : ℚ) / 40000 = ((75 : ℤ) : ℚ) / 1000000 by norm_num, roundUsd_intCast_div]
  · rw [show (3 : ℚ) / 50000 = ((60 : ℤ) : ℚ) / 1000000 by norm_num, roundUsd_intCast_div]
  · rw [show (27 : ℚ) / 200000 = ((135 : ℤ) : ℚ) / 1000000 by norm_num, roundUsd_intCast_div]

/-- Claim C3: for every pair of summaries and each regression metric, a
percentage delta of at most 20 (including all non-positive deltas)
produces no flag for that metric, a delta in (20, 50] produces exactly
one warning flag, and a delta above 50 produces exactly one critical
flag. -/
theorem claim_C3_thresholds (b c : SessionSummary) :
    ((costDeltaPctRaw b c ≤ 20 →
      (regressionsOf b c).filter (fun f => f.metric = "cost_usd") = []) ∧
     (20 < costDeltaPctRaw b c → costDeltaPctRaw b c ≤ 50 →
      (regressionsOf b c).filter (fun f => f.metric = "cost_usd") =
        [{ metric := "cost_usd", baselineValue := b.cost.totalCostUsd,
           compareValue := c.cost.totalCostUsd, deltaPct := costDeltaPctRaw b c,
           severity := .warning }]) ∧
     (50 < costDeltaPctRaw b c →
      (regressionsOf b c).filter (fun f => f.metric = "cost_usd") =
        [{ metric := "cost_usd", baselineValue := b.cost.totalCostUsd,
           compareValue := c.cost.totalCostUsd, deltaPct := costDeltaPctRaw b c,
           severity := .critical }])) ∧
    ((durationDeltaPctRaw b c = none →
      (regressionsOf b c).filter (fun f => f.metric = "session_duration_ms") = []) ∧
     (∀ v bd, durationDeltaPctRaw b c = some v → b.durationMs = some bd →
      ((v ≤ 20 →
        (regressionsOf b c).filter (fun f => f.metric = "session_duration_ms") = []) ∧
       (20 < v → v ≤ 50 →
        (regressionsOf b c).filter (fun f => f.metric = "session_duration_ms") =
          [{ metric := "session_duration_ms", baselineValue := (bd : ℚ),
             compareValue := ((c.durationMs.getD 0 : ℤ) : ℚ), deltaPct := v,
             severity := .warning }]) ∧
       (50 < v →
        (regressionsOf b c).filter (fun f => f.metric = "session_duration_ms") =
          [{ metric := "session_duration_ms", baselineValue := (bd : ℚ),
             compareValue := ((c.durationMs.getD 0 : ℤ) : ℚ), deltaPct := v,
             severity := .critical }])))) ∧
    ((p95DeltaPctRaw b c = none →
      (regressionsOf b c).filter (fun f => f.metric = "p95_tool_latency_ms") = []) ∧
     (∀ v bs cs, p95DeltaPctRaw b c = some v → b.overallLatency = some bs →
        c.overallLatency = some cs →
      ((v ≤ 20 →
        (regressionsOf b c).filter (fun f => f.metric = "p95_tool_latency_ms") = []) ∧
       (20 < v → v ≤ 50 →
        (regressionsOf b c).filter (fun f => f.metric = "p95_tool_latency_ms") =
          [{ metric := "p95_tool_latency_ms", baselineValue := (bs.p95Ms : ℚ),
             compareValue := (cs.p95Ms : ℚ), deltaPct := v,
             severity := .warning }]) ∧
       (50 < v →
        (regressionsOf b c).filter (fun f => f.metric = "p95_tool_latency_ms") =
          [{ metric := "p95_tool_latency_ms", baselineValue := (bs.p95Ms : ℚ),
             compareValue := (cs.p95Ms : ℚ), deltaPct := v,
             severity := .critical }])))) := by
  refine ⟨⟨?_, ?_, ?_⟩, ⟨?_, ?_⟩, ⟨?_, ?_⟩⟩
  · intro h
    rw [regressions_filter_cost]
    unfold costFlags
    split
    · exact maybeFlag_of_le20 _ _ _ _ h
    · rfl
  · intro h1 h2
    rw [regressions_filter_cost]
    unfold costFlags
    rw [if_pos (by linarith)]
    exact maybeFlag_warning _ _ _ _ h1 h2
  · intro h
    rw [regressions_filter_cost]
    unfold costFlags
    rw [if_pos (by linarith)]
    exact maybeFlag_critical _ _ _ _ h
  · intro h
    rw [regressions_filter_duration]
    unfold durationFlags
    rw [h]
  · intro v bd hv hbd
    have hpos := durationDeltaPctRaw_pos b c v bd hv hbd
    have hne : bd ≠ 0 := by omega
    refine ⟨?_, ?_, ?_⟩
    · intro h
      rw [regressions_filter_duration]
      simp only [durationFlags, hv, hbd]
      by_cases h0 : 0 < v
      · rw [if_pos ⟨h0, hne⟩]
        exact maybeFlag_of_le20 _ _ _ _ h
      · rw [if_neg (by tauto)]
    · intro h1 h2
      rw [regressions_filter_duration]
      simp only [durationFlags, hv, hbd]
      rw [if_pos ⟨by linarith, hne⟩]
      exact maybeFlag_warning _ _ _ _ h1 h2
    · intro h
      rw [regressions_filter_duration]
      simp only [durationFlags, hv, hbd]
      rw [if_pos ⟨by linarith, hne⟩]
      exact maybeFlag_critical _ _ _ _ h
  · intro h
    rw [regressions_filter_p95]
    unfold p95Flags
    rw [h]
  · intro v bs cs hv hbs hcs
    refine ⟨?_, ?_, ?_⟩
    · intro h
      rw [regressions_filter_p95]
      simp only [p95Flags, hv, hbs, hcs]
      by_cases h0 : 0 < v
      · rw [if_pos h0]
        exact maybeFlag_of_le20 _ _ _ _ h
      · rw [if_neg h0]
    · intro h1 h2
      rw [regressions_filter_p95]
      simp only [p95Flags, hv, hbs, hcs]
      rw [if_pos (show (0 : ℚ) < v by linarith)]
      exact maybeFlag_warning _ _ _ _ h1 h2
    · intro h
      rw [regressions_filter_p95]
      simp only [p95Flags, hv, hbs, hcs]
      rw [if_pos (show (0 : ℚ) < v by linarith)]
      exact maybeFlag_critical _ _ _ _ h

/-- Witness for C3: the spec scenario — baseline cost $0.0010, compare
cost $0.0015, a 50.0% delta — is flagged as a warning, not critical. -/
theorem claim_C3_thresholds_witness :
    20 < costDeltaPctRaw (summaryWithCost "b" 0.001) (summaryWithCost "c" 0.0015) ∧
    costDeltaPctRaw (summaryWithCost "b" 0.001) (summaryWithCost "c" 0.0015) ≤ 50 ∧
    (regressionsOf (summaryWithCost "b" 0.001) (summaryWithCost "c" 0.0015)).filter
        (fun f => f.metric = "cost_usd") =
      [{ metric := "cost_usd",
         baselineValue := (summaryWithCost "b" 0.001).cost.totalCostUsd,
         compareValue := (summaryWithCost "c" 0.0015).cost.totalCostUsd,
         deltaPct := costDeltaPctRaw (summaryWithCost "b" 0.001) (summaryWithCost "c" 0.0015),
         severity := .warning }] := by
  have h1 : costDeltaPctRaw (summaryWithCost "b" 0.001) (summaryWithCost "c" 0.0015) = 50 := by
    norm_num [costDeltaPctRaw, costDeltaRaw, summaryWithCost]
  refine ⟨by rw [h1]; norm_num, by rw [h1], ?_⟩
  exact (claim_C3_thresholds _ _).1.2.1 (by rw [h1]; norm_num) (by rw [h1])

/-- Claim C4: comparing a summary against itself yields zero cost
delta, zero cost percentage, zero tool-call delta, zero duration and
p95 deltas whenever they are non-null, and an empty regressions list. -/
theorem claim_C4_self_compare (s : SessionSummary) :
    (compareSessionSummaries s s).costDeltaUsd = 0 ∧
    (compareSessionSummaries s s).costDeltaPct = 0 ∧
    (compareSessionSummaries s s).toolCallDelta = 0 ∧
    (∀ d, (compareSessionSummaries s s).durationDeltaMs = some d → d = 0) ∧
    (∀ d, (compareSessionSummaries s s).p95LatencyDeltaMs = some d → d = 0) ∧
    (∀ q, (compareSessionSummaries s s).durationDeltaPct = some q → q = 0) ∧
    (∀ q, (compareSessionSummaries s s).p95LatencyDeltaPct = some q → q = 0) ∧
    (compareSessionSummaries s s).regressions = [] := by
  have hcd : costDeltaRaw s s = 0 := by unfold costDeltaRaw; ring
  have hcp : costDeltaPctRaw s s = 0 := by
    unfold costDeltaPctRaw
    rw [hcd]
    split <;> simp
  refine ⟨?_, ?_, ?_, ?_, ?_, ?_, ?_, ?_⟩
  · simp [compareSessionSummaries, hcd, roundUsd_zero]
  · simp [compareSessionSummaries, hcp, round1_zero]
  · simp [compareSessionSummaries]
  · intro d
    cases hd : s.durationMs <;>
      (simp [compareSessionSummaries, durationDeltaRaw, hd]; try omega)
  · intro d
    cases hl : s.overallLatency <;>
      (simp [compareSessionSummaries, p95DeltaRaw, hl]; try omega)
  · intro q
    cases hd : s.durationMs with
    | none => simp [compareSessionSummaries, durationDeltaPctRaw, hd]
    | some b =>
      have hdp : durationDeltaPctRaw s s = if 0 < b then some (0 : ℚ) else none := by
        simp [durationDeltaPctRaw, hd]
      by_cases hb : 0 < b
      · simp [compareSessionSummaries, hdp, hb, round1_zero]
        intro h
        exact h.symm
      · simp [compareSessionSummaries, hdp, hb]
  · intro q
    cases hl : s.overallLatency with
    | none => simp [compareSessionSummaries, p95DeltaPctRaw, hl]
    | some st =>
      simp [compareSessionSummaries, p95DeltaPctRaw, hl, p95DeltaPctFn_self, round1_zero]
      intro h
      exact h.symm
  · show regressionsOf s s = []
    unfold regressionsOf
    rw [costFlags_self, durationFlags_self, p95Flags_self]
    rfl

/-- Witness for C4: the self-comparison facts at a concrete summary
with known duration and latency. -/
theorem claim_C4_self_compare_witness :
    (compareSessionSummaries summaryFull summaryFull).costDeltaUsd = 0 ∧
    (compareSessionSummaries summaryFull summaryFull).costDeltaPct = 0 ∧
    (compareSessionSummaries summaryFull summaryFull).toolCallDelta = 0 ∧
    (∀ d, (compareSessionSummaries summaryFull summaryFull).durationDeltaMs = some d → d = 0) ∧
    (∀ d, (compareSessionSummaries summaryFull summaryFull).p95LatencyDeltaMs = some d → d = 0) ∧
    (∀ q, (compareSessionSummaries summaryFull summaryFull).durationDeltaPct = some q → q = 0) ∧
    (∀ q, (compareSessionSummaries summaryFull summaryFull).p95LatencyDeltaPct = some q → q = 0) ∧
    (compareSessionSummaries summaryFull summaryFull).regressions = [] :=
  claim_C4_self_compare summaryFull

/-- A session summary with a given duration and no cost/latency data. -/
def summaryDur (id : String) (d : Option ℤ) : SessionSummary :=
  { sessionId := id, label := none, startedAt := 0, endedAt := none, durationMs := d,
    toolCallCount := 0, llmRequestCount := 0, errorCount := 0, uniqueToolsUsed := [],
    cost := { estimatedInputTokens := 0, estimatedOutputTokens := 0,
              estimatedTotalTokens := 0, inputCostUsd := 0, outputCostUsd := 0,
              totalCostUsd := 0, modelUsed := none },
    overallLatency := none, toolBreakdown := [] }

/-- Counterexample to claim C8: with both durations known and the
baseline duration exactly 0, `durationDeltaPct` is null, not 0. -/
theorem claim_C8_counterexample :
    (summaryDur "b" (some 0)).durationMs = some 0 ∧
    (summaryDur "c" (some 5)).durationMs = some 5 ∧
    (compareSessionSummaries (summaryDur "b" (some 0)) (summaryDur "c" (some 5))).durationDeltaMs
      = some 5 ∧
    (compareSessionSummaries (summaryDur "b" (some 0)) (summaryDur "c" (some 5))).durationDeltaPct
      = none := by
  refine ⟨rfl, rfl, rfl, rfl⟩

/-- Claim C8 (amended): when both durations are known,
`durationDeltaMs` is their difference; `durationDeltaPct` is the
percentage (rounded to one decimal) only when the baseline duration is
strictly positive, and null otherwise; both fields are null whenever
either duration is unknown. -/
theorem claim_C8_duration_pct (b c : SessionSummary) (bd cd : ℤ) :
    (b.durationMs = some bd → c.durationMs = some cd →
      (compareSessionSummaries b c).durationDeltaMs = some (cd - bd) ∧
      (0 < bd → (compareSessionSummaries b c).durationDeltaPct =
        some (round1 ((((cd - bd) : ℤ) : ℚ) / (bd : ℚ) * 100))) ∧
      (bd ≤ 0 → (compareSessionSummaries b c).durationDeltaPct = none)) ∧
    (b.durationMs = none →
      (compareSessionSummaries b c).durationDeltaMs = none ∧
      (compareSessionSummaries b c).durationDeltaPct = none) ∧
    (c.durationMs = none →
      (compareSessionSummaries b c).durationDeltaMs = none ∧
      (compareSessionSummaries b c).durationDeltaPct = none) := by
  refine ⟨?_, ?_, ?_⟩
  · intro hb hc
    refine ⟨?_, ?_, ?_⟩
    · simp [compareSessionSummaries, durationDeltaRaw, hb, hc]
    · intro hpos
      simp [compareSessionSummaries, durationDeltaPctRaw, hb, hc, hpos]
    · intro hnonpos
      simp [compareSessionSummaries, durationDeltaPctRaw, hb, hc, (show ¬(0 < bd) by omega)]
  · intro hb
    constructor
    · simp [compareSessionSummaries, durationDeltaRaw, hb]
    · simp [compareSessionSummaries, durationDeltaPctRaw, hb]
  · intro hc
    cases hb : b.durationMs with
    | none => constructor
              · simp [compareSessionSummaries, durationDeltaRaw, hb]
              · simp [compareSessionSummaries, durationDeltaPctRaw, hb]
    | some x => constructor
                · simp [compareSessionSummaries, durationDeltaRaw, hb, hc]
                · simp [compareSessionSummaries, durationDeltaPctRaw, hb, hc]

/-- Witness for C8: a 1000 ms baseline against a 1500 ms compare gives
duration delta 500 ms and percentage 50%. -/
theorem claim_C8_duration_pct_witness :
    (summaryDur "b" (some 1000)).durationMs = some 1000 ∧
    (compareSessionSummaries (summaryDur "b" (some 1000)) (summaryDur "c" (some 1500))).durationDeltaMs
      = some 500 ∧
    (compareSessionSummaries (summaryDur "b" (some 1000)) (summaryDur "c" (some 1500))).durationDeltaPct
      = some (round1 ((((1500 - 1000 : ℤ) : ℤ) : ℚ) / ((1000 : ℤ) : ℚ) * 100)) := by
  have h := (claim_C8_duration_pct (summaryDur "b" (some 1000)) (summaryDur "c" (some 1500))
    1000 1500).1 rfl rfl
  exact ⟨rfl, by rw [h.1]; norm_num, h.2.1 (by norm_num)⟩


/-- Budget configuration with both caps at $0.0001 and the default 80%
threshold. -/
def cfgBoth : BudgetConfig :=
  { max_per_session_usd := 0.0001, max_per_day_usd := 0.0001, alert_threshold_pct := 80 }

/-- One large LLM row (4,000,000 prompt characters). -/
def rowsBig : List LlmRow :=
  [{ prompt_chars := some 4000000, response_chars := none, model := none }]

/-- Daily character totals matching `rowsBig`. -/
def dailyBig : ℕ × ℕ := (4000000, 0)

theorem rowsBig_cost : (computeCost rowsBig).totalCostUsd = 0.075 := by
  unfold computeCost
  rw [show sumPromptChars rowsBig = 4000000 from rfl,
    show sumResponseChars rowsBig = 0 from rfl,
    show dominantModel rowsBig = none from rfl,
    estimateTokens_eval, estimateTokens_eval]
  norm_num [pricingFor, proPricing]
  rw [show (3 : ℚ) / 40 = ((75000 : ℤ) : ℚ) / 1000000 by norm_num, roundUsd_intCast_div]

theorem dailyBig_cost :
    (computeCost [{ prompt_chars := some dailyBig.1, response_chars := none, model := none },
                  { prompt_chars := none, response_chars := some dailyBig.2, model := none }]).totalCostUsd
      = 0.075 := by
  unfold computeCost
  rw [show sumPromptChars [⟨some dailyBig.1, none, none⟩, ⟨none, some dailyBig.2, none⟩]
      = 4000000 from rfl,
    show sumResponseChars [⟨some dailyBig.1, none, none⟩, ⟨none, some dailyBig.2, none⟩]
      = 0 from rfl,
    show dominantModel [⟨some dailyBig.1, none, none⟩, ⟨none, some dailyBig.2, none⟩]
      = none from rfl,
    estimateTokens_eval, estimateTokens_eval]
  norm_num [pricingFor, proPricing]
  rw [show (3 : ℚ) / 40 = ((75000 : ℤ) : ℚ) / 1000000 by norm_num, roundUsd_intCast_div]

/-- Counterexample to claim C7: with both thresholds crossed, the
evaluator returns only the per-session warning — the per-day check is
not evaluated (its crossed threshold is shown alongside), so it is not
the case that both checks may fire on one call. -/
theorem claim_C7_counterexample :
    cfgBoth.max_per_day_usd * (cfgBoth.alert_threshold_pct / 100) ≤
      (computeCost [{ prompt_chars := some dailyBig.1, response_chars := none, model := none },
                    { prompt_chars := none, response_chars := some dailyBig.2, model := none }]).totalCostUsd ∧
    checkBudget cfgBoth rowsBig dailyBig =
      some (.session (computeCost rowsBig).totalCostUsd cfgBoth.max_per_session_usd) := by
  constructor
  · rw [dailyBig_cost]
    norm_num [cfgBoth]
  · unfold checkBudget
    rw [if_neg (by norm_num [cfgBoth]),
      if_pos ⟨by norm_num [cfgBoth], by rw [rowsBig_cost]; norm_num [cfgBoth]⟩]

/-- Claim C7 (amended): evaluation is session-then-day with an early
return — when the per-session check fires, the result is the session
warning for every possible daily total (the per-day check is not
evaluated), so at most one warning fires per call; the per-day check
runs only when the per-session check does not fire. -/
theorem claim_C7_budget_order (config : BudgetConfig) (sessionRows : List LlmRow)
    (daily : ℕ × ℕ) :
    ((0 < config.max_per_session_usd →
      config.max_per_session_usd * (config.alert_threshold_pct / 100) ≤
        (computeCost sessionRows).totalCostUsd →
      checkBudget config sessionRows daily =
        some (.session (computeCost sessionRows).totalCostUsd config.max_per_session_usd))) ∧
    ((¬(0 < config.max_per_session_usd ∧
        config.max_per_session_usd * (config.alert_threshold_pct / 100) ≤
          (computeCost sessionRows).totalCostUsd)) →
      0 < config.max_per_day_usd →
      config.max_per_day_usd * (config.alert_threshold_pct / 100) ≤
        (computeCost [{ prompt_chars := some daily.1, response_chars := none, model := none },
                      { prompt_chars := none, response_chars := some daily.2, model := none }]).totalCostUsd →
      checkBudget config sessionRows daily =
        some (.daily
          (computeCost [{ prompt_chars := some daily.1, response_chars := none, model := none },
                        { prompt_chars := none, response_chars := some daily.2, model := none }]).totalCostUsd
          config.max_per_day_usd)) ∧
    ((config.max_per_session_usd ≤ 0 ∧ config.max_per_day_usd ≤ 0) →
      checkBudget config sessionRows daily = none) ∧
    ((¬(0 < config.max_per_session_usd ∧
        config.max_per_session_usd * (config.alert_threshold_pct / 100) ≤
          (computeCost sessionRows).totalCostUsd)) →
      (¬(0 < config.max_per_day_usd ∧
        config.max_per_day_usd * (config.alert_threshold_pct / 100) ≤
          (computeCost [{ prompt_chars := some daily.1, response_chars := none, model := none },
                        { prompt_chars := none, response_chars := some daily.2, model := none }]).totalCostUsd)) →
      checkBudget config sessionRows daily = none) := by
  unfold checkBudget
  refine ⟨?_, ?_, ?_, ?_⟩
  · intro h1 h2
    rw [if_neg (by intro hc; exact absurd h1 (by linarith [hc.1])), if_pos ⟨h1, h2⟩]
  · intro h1 h2 h3
    rw [if_neg (by intro hc; exact absurd h2 (by linarith [hc.2])), if_neg h1,
      if_pos h2, if_pos h3]
  · intro h
    rw [if_pos h]
  · intro h1 h2
    by_cases hA : config.max_per_session_usd ≤ 0 ∧ config.max_per_day_usd ≤ 0
    · rw [if_pos hA]
    · rw [if_neg hA, if_neg h1]
      by_cases hd : 0 < config.max_per_day_usd
      · rw [if_pos hd, if_neg (fun hc => h2 ⟨hd, hc⟩)]
      · rw [if_neg hd]


/-- Witness for C7 (amended): at the concrete configuration with both
caps crossed, the session warning fires. -/
theorem claim_C7_budget_order_witness :
    0 < cfgBoth.max_per_session_usd ∧
    cfgBoth.max_per_session_usd * (cfgBoth.alert_threshold_pct / 100) ≤
      (computeCost rowsBig).totalCostUsd ∧
    checkBudget cfgBoth rowsBig dailyBig =
      some (.session (computeCost rowsBig).totalCostUsd cfgBoth.max_per_session_usd) := by
  have h1 : (0 : ℚ) < cfgBoth.max_per_session_usd := by norm_num [cfgBoth]
  have h2 : cfgBoth.max_per_session_usd * (cfgBoth.alert_threshold_pct / 100) ≤
      (computeCost rowsBig).totalCostUsd := by
    rw [rowsBig_cost]
    norm_num [cfgBoth]
  exact ⟨h1, h2, (claim_C7_budget_order cfgBoth rowsBig dailyBig).1 h1 h2⟩


theorem find?_map_id_pred (l : List Session) (sid : String) (g : Session → Session)
    (hg : ∀ s, (g s).id = s.id) :
    (l.map g).find? (fun s => s.id = sid) = (l.find? (fun s => s.id = sid)).map g := by
  induction l with
  | nil => rfl
  | cons a t ih =>
    simp only [List.map_cons, List.find?_cons]
    by_cases h : a.id = sid
    · rw [show (decide ((g a).id = sid)) = true by simp [hg, h],
        show (decide (a.id = sid)) = true by simp [h]]
      rfl
    · rw [show (decide ((g a).id = sid)) = false by simp [hg, h],
        show (decide (a.id = sid)) = false by simp [h]]
      exact ih

theorem getById_endSession (db : DB) (sid : String) (t : ℤ) (s : Session)
    (hs : getById db sid = some s) :
    getById (endSession db sid t) sid = some { s with ended_at := some t } := by
  unfold getById at hs ⊢
  unfold endSession
  rw [find?_map_id_pred _ _ _ (fun x => by split <;> rfl), hs]
  have hid : s.id = sid := by
    have := List.find?_some hs
    simpa using this
  simp [hid]

/-- Claim C9: after a successful `handleEndSession`, a second call on
the same id reports the already-ended condition with the original end
timestamp and leaves the database completely unchanged (no session
mutated, no event inserted). -/
theorem claim_C9_end_twice (db : DB) (sid : String) (n1 n2 : ℤ) (e1 e2 : String)
    (h : (handleEndSession n1 e1 db sid).2 = .ended) :
    handleEndSession n2 e2 (handleEndSession n1 e1 db sid).1 sid =
      ((handleEndSession n1 e1 db sid).1, .alreadyEnded n1) := by
  cases hs : getById db sid with
  | none => simp [handleEndSession, hs] at h
  | some s =>
    cases he : s.ended_at with
    | some t => simp [handleEndSession, hs, he] at h
    | none =>
      have hrun : handleEndSession n1 e1 db sid =
          (insertEvent (endSession db sid n1)
            { id := e1, session_id := sid, event_type := .SESSION_END,
              tool_name := none, model := none, prompt_chars := none,
              response_chars := none, duration_ms := none, error_message := none,
              recorded_at := n1 }, .ended) := by
        simp only [handleEndSession, hs, he]
      have hget2 : getById (handleEndSession n1 e1 db sid).1 sid =
          some { s with ended_at := some n1 } := by
        rw [hrun]
        show getById (insertEvent (endSession db sid n1) _) sid = _
        have : ∀ d e, getById (insertEvent d e) sid = getById d sid := fun d e => rfl
        rw [this, getById_endSession db sid n1 s hs]
      have hfinal : ∀ d : DB, getById d sid = some { s with ended_at := some n1 } →
          handleEndSession n2 e2 d sid = (d, .alreadyEnded n1) := by
        intro d hd
        simp only [handleEndSession, hd]
      exact hfinal _ hget2

/-- The database state for the C9 witness: one open session, no
events. -/
def dbOne : DB :=
  { sessions := [{ id := "s", label := none, model := none, started_at := 0, ended_at := none }],
    events := [] }

/-- Witness for C9: ending the concrete session once succeeds; the
second call reports already-ended at the first timestamp and returns
the state unchanged. -/
theorem claim_C9_end_twice_witness :
    (handleEndSession 5 "e1" dbOne "s").2 = .ended ∧
    handleEndSession 7 "e2" (handleEndSession 5 "e1" dbOne "s").1 "s" =
      ((handleEndSession 5 "e1" dbOne "s").1, .alreadyEnded 5) :=
  ⟨rfl, claim_C9_end_twice dbOne "s" 5 7 "e1" "e2" rfl⟩


theorem addRow_errors_zero (l : List (String × List ℕ × ℕ)) (r : ToolRow)
    (hl : ∀ g ∈ l, g.2.2 = 0) (hr : r.error = 0) :
    ∀ g ∈ addRow l r, g.2.2 = 0 := by
  induction l with
  | nil =>
    intro g hg
    simp [addRow, hr] at hg
    simp [hg]
  | cons a t ih =>
    obtain ⟨k, ds, es⟩ := a
    intro g hg
    rw [addRow] at hg
    split at hg
    · rcases List.mem_cons.mp hg with h | h
      · have hes : es = 0 := hl (k, ds, es) (List.mem_cons_self _ _)
        simp [h, hr, hes]
      · exact hl g (List.mem_cons_of_mem _ h)
    · rcases List.mem_cons.mp hg with h | h
      · exact h ▸ hl (k, ds, es) (List.mem_cons_self _ _)
      · exact ih (fun g hg => hl g (List.mem_cons_of_mem _ hg)) g h

theorem foldl_addRow_errors_zero (rows : List ToolRow) (acc : List (String × List ℕ × ℕ))
    (hacc : ∀ g ∈ acc, g.2.2 = 0) (h : ∀ r ∈ rows, r.error = 0) :
    ∀ g ∈ rows.foldl addRow acc, g.2.2 = 0 := by
  induction rows generalizing acc with
  | nil => exact hacc
  | cons r t ih =>
    rw [List.foldl_cons]
    exact ih (addRow acc r) (addRow_errors_zero acc r hacc (h r (List.mem_cons_self _ _)))
      (fun x hx => h x (List.mem_cons_of_mem _ hx))

theorem computeToolLatencyStats_errorRate_zero (rows : List ToolRow)
    (h : ∀ r ∈ rows, r.error = 0) :
    ∀ t ∈ computeToolLatencyStats rows, t.errorRate = 0 := by
  intro t ht
  unfold computeToolLatencyStats at ht
  rw [List.mem_insertionSort] at ht
  obtain ⟨g, hg, hfg⟩ := List.mem_filterMap.mp ht
  have hz : g.2.2 = 0 := foldl_addRow_errors_zero rows [] (by simp) h g hg
  revert hfg
  split
  · intro hfg
    simp at hfg
  · intro hfg
    have ht2 := Option.some.inj hfg
    rw [← ht2, hz]
    split <;> simp


/-- Claim C10: every per-tool entry of a session summary has error
rate 0, whatever the session's events are. -/
theorem claim_C10_session_error_rate (db : DB) (sid : String) (s : SessionSummary)
    (h : buildSessionSummary db sid = some s) :
    ∀ t ∈ s.toolBreakdown, t.errorRate = 0 := by
  cases hq : getById db sid with
  | none => rw [buildSessionSummary, hq] at h; simp at h
  | some sess =>
    have hb : s.toolBreakdown = computeToolLatencyStats
        ((toolDurations db sid).map fun r =>
          { tool_name := r.1, duration_ms := r.2, error := 0 : ToolRow }) := by
      simp only [buildSessionSummary, hq] at h
      have := Option.some.inj h
      rw [← this]
    rw [hb]
    exact computeToolLatencyStats_errorRate_zero _ (by
      intro r hr
      obtain ⟨x, _, hx⟩ := List.mem_map.mp hr
      rw [← hx])

theorem computeCost_nil :
    computeCost [] =
      { estimatedInputTokens := 0, estimatedOutputTokens := 0, estimatedTotalTokens := 0,
        inputCostUsd := 0, outputCostUsd := 0, totalCostUsd := 0, modelUsed := none } := by
  unfold computeCost
  rw [show sumPromptChars [] = 0 from rfl, show sumResponseChars [] = 0 from rfl,
    show dominantModel [] = none from rfl, estimateTokens_eval]
  norm_num [pricingFor, proPricing, roundUsd_zero]

theorem computePercentiles_single (d : ℕ) :
    computePercentiles [d] =
      some { p50Ms := d, p75Ms := d, p95Ms := d, p99Ms := d, minMs := d, maxMs := d,
             meanMs := (d : ℤ), sampleCount := 1 } := by
  have hs : sortedAsc [d] = [d] := rfl
  unfold computePercentiles
  rw [if_neg (by simp)]
  rw [hs]
  dsimp only
  have hmean : round (((List.sum [d] : ℕ) : ℚ) / (([d] : List ℕ).length : ℚ)) = (d : ℤ) := by
    rw [round_natCast_div_eval _ _ (by simp)]
    simp
    omega
  rw [hmean]
  rfl


/-- Percentile stats of the single-sample collection `[100]`. -/
def statsSingle100 : PercentileStats :=
  { p50Ms := 100, p75Ms := 100, p95Ms := 100, p99Ms := 100, minMs := 100, maxMs := 100,
    meanMs := 100, sampleCount := 1 }

/-- The per-tool entry produced for one 100 ms `bash` call. -/
def toolEntry : ToolLatencyStats :=
  { toolName := "bash", stats := statsSingle100, errorRate := 0, callCount := 1 }

/-- A database with one open session and one TOOL_END event. -/
def dbTool : DB :=
  { sessions := [{ id := "s", label := none, model := none, started_at := 0, ended_at := none }],
    events := [{ id := "e1", session_id := "s", event_type := .TOOL_END,
                 tool_name := some "bash", model := none, prompt_chars := none,
                 response_chars := none, duration_ms := some 100, error_message := none,
                 recorded_at := 1 }] }

/-- The summary of `dbTool`'s session. -/
def sumTool : SessionSummary :=
  { sessionId := "s", label := none, startedAt := 0, endedAt := none, durationMs := none,
    toolCallCount := 1, llmRequestCount := 0, errorCount := 0, uniqueToolsUsed := ["bash"],
    cost := { estimatedInputTokens := 0, estimatedOutputTokens := 0, estimatedTotalTokens := 0,
              inputCostUsd := 0, outputCostUsd := 0, totalCostUsd := 0, modelUsed := none },
    overallLatency := some statsSingle100, toolBreakdown := [toolEntry] }

theorem toolStats_single :
    computeToolLatencyStats [{ tool_name := "bash", duration_ms := 100, error := 0 }] =
      [toolEntry] := by
  unfold computeToolLatencyStats
  rw [show groupRows [{ tool_name := "bash", duration_ms := 100, error := 0 }] =
      [("bash", ([100], 0))] from rfl]
  simp only [List.filterMap_cons, List.filterMap_nil, computePercentiles_single]
  norm_num [toolEntry, statsSingle100, List.insertionSort, List.orderedInsert]

theorem buildSessionSummary_dbTool : buildSessionSummary dbTool "s" = some sumTool := by
  unfold buildSessionSummary
  rw [show getById dbTool "s" =
      some { id := "s", label := none, model := none, started_at := 0, ended_at := none }
      from rfl]
  dsimp only
  rw [show llmChars dbTool "s" = [] from rfl,
    show toolDurations dbTool "s" = [("bash", 100)] from rfl,
    computeCost_nil]
  rw [show ([("bash", 100)] : List (String × ℕ)).map (fun r => r.2) = [100] from rfl,
    computePercentiles_single]
  rw [show ([("bash", 100)] : List (String × ℕ)).map (fun r =>
      { tool_name := r.1, duration_ms := r.2, error := 0 : ToolRow }) =
      [{ tool_name := "bash", duration_ms := 100, error := 0 }] from rfl,
    toolStats_single]
  rfl

/-- Witness for C10: the concrete single-tool session's breakdown entry
has error rate 0. -/
theorem claim_C10_session_error_rate_witness :
    buildSessionSummary dbTool "s" = some sumTool ∧
    toolEntry ∈ sumTool.toolBreakdown ∧ toolEntry.errorRate = 0 :=
  ⟨buildSessionSummary_dbTool,
   by simp [sumTool],
   claim_C10_session_error_rate dbTool "s" sumTool buildSessionSummary_dbTool toolEntry
     (by simp [sumTool])⟩


theorem round_mono_rat (a b : ℚ) (h : a ≤ b) : round a ≤ round b := by
  rw [round_eq, round_eq]
  exact Int.floor_le_floor (by linarith)

theorem roundUsd_mono (a b : ℚ) (h : a ≤ b) : roundUsd a ≤ roundUsd b := by
  unfold roundUsd
  have := round_mono_rat (a * 1000000) (b * 1000000) (by linarith)
  have hc : ((round (a * 1000000) : ℤ) : ℚ) ≤ ((round (b * 1000000) : ℤ) : ℚ) := by
    exact_mod_cast this
  linarith

theorem pricingFor_nonneg (m : Option String) :
    0 ≤ (pricingFor m).inputPer1M ∧ 0 ≤ (pricingFor m).outputPer1M := by
  unfold pricingFor
  cases m with
  | none => norm_num [proPricing]
  | some s =>
    constructor
    · show 0 ≤ (if s = "" then proPricing
        else if containsFlash s then flashPricing else proPricing).inputPer1M
      split_ifs <;> norm_num [proPricing, flashPricing]
    · show 0 ≤ (if s = "" then proPricing
        else if containsFlash s then flashPricing else proPricing).outputPer1M
      split_ifs <;> norm_num [proPricing, flashPricing]

theorem estimateTokens_mono (a b : ℕ) (h : a ≤ b) : estimateTokens a ≤ estimateTokens b := by
  rw [estimateTokens_eval, estimateTokens_eval]
  exact Nat.div_le_div_right (by omega)

/-- Claim C6: with the model assignment fixed, increasing the total
prompt or response characters never decreases the total cost. -/
theorem claim_C6_cost_monotone (r1 r2 : List LlmRow)
    (hm : modelsOf r1 = modelsOf r2)
    (hp : sumPromptChars r1 ≤ sumPromptChars r2)
    (hr : sumResponseChars r1 ≤ sumResponseChars r2) :
    (computeCost r1).totalCostUsd ≤ (computeCost r2).totalCostUsd := by
  have hd : dominantModel r1 = dominantModel r2 := by
    unfold dominantModel
    rw [hm]
  unfold computeCost
  dsimp only
  rw [hd]
  apply roundUsd_mono
  have hpin := (pricingFor_nonneg (dominantModel r2)).1
  have hpout := (pricingFor_nonneg (dominantModel r2)).2
  have c1 : ((estimateTokens (sumPromptChars r1) : ℕ) : ℚ) ≤
      ((estimateTokens (sumPromptChars r2) : ℕ) : ℚ) := by
    exact_mod_cast estimateTokens_mono _ _ hp
  have c2 : ((estimateTokens (sumResponseChars r1) : ℕ) : ℚ) ≤
      ((estimateTokens (sumResponseChars r2) : ℕ) : ℚ) := by
    exact_mod_cast estimateTokens_mono _ _ hr
  gcongr

/-- Witness for C6: adding characters to the scenario row does not
lower the cost. -/
theorem claim_C6_cost_monotone_witness :
    modelsOf [({ prompt_chars := some 4000, response_chars := some 800, model := none } : LlmRow)] =
      modelsOf [({ prompt_chars := some 8000, response_chars := some 800, model := none } : LlmRow)] ∧
    sumPromptChars [({ prompt_chars := some 4000, response_chars := some 800, model := none } : LlmRow)] ≤
      sumPromptChars [({ prompt_chars := some 8000, response_chars := some 800, model := none } : LlmRow)] ∧
    (computeCost [({ prompt_chars := some 4000, response_chars := some 800, model := none } : LlmRow)]).totalCostUsd ≤
      (computeCost [({ prompt_chars := some 8000, response_chars := some 800, model := none } : LlmRow)]).totalCostUsd :=
  ⟨rfl, by decide,
   claim_C6_cost_monotone _ _ rfl (by decide) (by decide)⟩


theorem clampIdx_le (p n : ℕ) : clampIdx p n ≤ n - 1 := by
  unfold clampIdx
  generalize ⌈((p : ℚ) / 100) * (n : ℚ)⌉ = r
  omega

theorem clampIdx_lt (p n : ℕ) (hn : 0 < n) : clampIdx p n < n := by
  have := clampIdx_le p n
  omega

theorem clampIdx_mono (p q n : ℕ) (h : p ≤ q) : clampIdx p n ≤ clampIdx q n := by
  have hc : ⌈((p : ℚ) / 100) * (n : ℚ)⌉ ≤ ⌈((q : ℚ) / 100) * (n : ℚ)⌉ := by
    apply Int.ceil_le_ceil
    have hq : ((p : ℚ)) ≤ (q : ℚ) := by exact_mod_cast h
    apply mul_le_mul_of_nonneg_right
    · linarith
    · positivity
  unfold clampIdx
  generalize h1 : ⌈((p : ℚ) / 100) * (n : ℚ)⌉ = r1 at hc
  generalize h2 : ⌈((q : ℚ) / 100) * (n : ℚ)⌉ = r2 at hc
  omega

theorem nearestRank_eq (sorted : List ℕ) (p : ℕ) :
    nearestRank sorted p = sorted.getD (clampIdx p sorted.length) 0 := by
  unfold nearestRank
  dsimp only
  split
  · rename_i h1
    have h0 : clampIdx p sorted.length = 0 := by
      have := clampIdx_le p sorted.length
      omega
    rw [h0]
  · rfl

theorem sorted_getD_mono (l : List ℕ) (hs : List.Sorted (· ≤ ·) l) (i j : ℕ)
    (hij : i ≤ j) (hj : j < l.length) : l.getD i 0 ≤ l.getD j 0 := by
  have hi : i < l.length := lt_of_le_of_lt hij hj
  rw [List.getD_eq_getElem l 0 hi, List.getD_eq_getElem l 0 hj]
  exact hs.rel_get_of_le (a := ⟨i, hi⟩) (b := ⟨j, hj⟩) hij

theorem sorted_getD_mem (l : List ℕ) (i : ℕ) (hi : i < l.length) : l.getD i 0 ∈ l := by
  rw [List.getD_eq_getElem l 0 hi]
  exact List.getElem_mem hi

/-- The full claim-C1 contract of `computePercentiles` on a non-empty
collection: each percentile is the ascending-sorted input indexed at
`clamp(ceil(p/100 * n) - 1, 0, n - 1)`, min/max are the sorted ends,
the mean is the rounded arithmetic mean, the percentiles are ordered
between min and max, every returned value is a member of the input, and
a single-sample input makes every field that sample. -/
def percentileSpec (l : List ℕ) : Prop :=
  ∃ stats, computePercentiles l = some stats ∧
    stats.p50Ms = (sortedAsc l).getD (clampIdx 50 l.length) 0 ∧
    stats.p75Ms = (sortedAsc l).getD (clampIdx 75 l.length) 0 ∧
    stats.p95Ms = (sortedAsc l).getD (clampIdx 95 l.length) 0 ∧
    stats.p99Ms = (sortedAsc l).getD (clampIdx 99 l.length) 0 ∧
    stats.minMs = (sortedAsc l).getD 0 0 ∧
    stats.maxMs = (sortedAsc l).getD (l.length - 1) 0 ∧
    stats.meanMs = round ((l.sum : ℚ) / (l.length : ℚ)) ∧
    stats.sampleCount = l.length ∧
    stats.minMs ≤ stats.p50Ms ∧ stats.p50Ms ≤ stats.p75Ms ∧
    stats.p75Ms ≤ stats.p95Ms ∧ stats.p95Ms ≤ stats.p99Ms ∧ stats.p99Ms ≤ stats.maxMs ∧
    stats.p50Ms ∈ l ∧ stats.p75Ms ∈ l ∧ stats.p95Ms ∈ l ∧ stats.p99Ms ∈ l ∧
    stats.minMs ∈ l ∧ stats.maxMs ∈ l ∧
    (∀ d, l = [d] →
      stats.p50Ms = d ∧ stats.p75Ms = d ∧ stats.p95Ms = d ∧ stats.p99Ms = d ∧
      stats.minMs = d ∧ stats.maxMs = d ∧ stats.meanMs = (d : ℤ))

/-- Claim C1: the nearest-rank percentile contract holds for every
non-empty duration collection. -/
theorem claim_C1_percentiles (l : List ℕ) (h : l ≠ []) : percentileSpec l := by
  have hlen0 : l.length ≠ 0 := fun hh => h (List.length_eq_zero.mp hh)
  have hpos : 0 < l.length := Nat.pos_of_ne_zero hlen0
  have hperm : List.Perm (sortedAsc l) l := List.perm_insertionSort _ l
  have hlen : (sortedAsc l).length = l.length := hperm.length_eq
  have hsort : List.Sorted (· ≤ ·) (sortedAsc l) := List.sorted_insertionSort _ l
  have memAt : ∀ i, i < l.length → (sortedAsc l).getD i 0 ∈ l := fun i hi =>
    hperm.subset (sorted_getD_mem (sortedAsc l) i (by rw [hlen]; exact hi))
  have monoAt : ∀ i j, i ≤ j → j < l.length →
      (sortedAsc l).getD i 0 ≤ (sortedAsc l).getD j 0 := fun i j hij hj =>
    sorted_getD_mono (sortedAsc l) hsort i j hij (by rw [hlen]; exact hj)
  have e50 : nearestRank (sortedAsc l) 50 = (sortedAsc l).getD (clampIdx 50 l.length) 0 := by
    rw [nearestRank_eq, hlen]
  have e75 : nearestRank (sortedAsc l) 75 = (sortedAsc l).getD (clampIdx 75 l.length) 0 := by
    rw [nearestRank_eq, hlen]
  have e95 : nearestRank (sortedAsc l) 95 = (sortedAsc l).getD (clampIdx 95 l.length) 0 := by
    rw [nearestRank_eq, hlen]
  have e99 : nearestRank (sortedAsc l) 99 = (sortedAsc l).getD (clampIdx 99 l.length) 0 := by
    rw [nearestRank_eq, hlen]
  have echain1 : (sortedAsc l).getD 0 0 ≤ (sortedAsc l).getD (clampIdx 50 l.length) 0 :=
    monoAt 0 _ (Nat.zero_le _) (clampIdx_lt 50 _ hpos)
  have echain2 : (sortedAsc l).getD (clampIdx 50 l.length) 0 ≤
      (sortedAsc l).getD (clampIdx 75 l.length) 0 :=
    monoAt _ _ (clampIdx_mono 50 75 _ (by norm_num)) (clampIdx_lt 75 _ hpos)
  have echain3 : (sortedAsc l).getD (clampIdx 75 l.length) 0 ≤
      (sortedAsc l).getD (clampIdx 95 l.length) 0 :=
    monoAt _ _ (clampIdx_mono 75 95 _ (by norm_num)) (clampIdx_lt 95 _ hpos)
  have echain4 : (sortedAsc l).getD (clampIdx 95 l.length) 0 ≤
      (sortedAsc l).getD (clampIdx 99 l.length) 0 :=
    monoAt _ _ (clampIdx_mono 95 99 _ (by norm_num)) (clampIdx_lt 99 _ hpos)
  have echain5 : (sortedAsc l).getD (clampIdx 99 l.length) 0 ≤
      (sortedAsc l).getD (l.length - 1) 0 :=
    monoAt _ _ (clampIdx_le 99 _) (by omega)
  have emean : round (((sortedAsc l).sum : ℚ) / (((sortedAsc l).length : ℕ) : ℚ)) =
      round ((l.sum : ℚ) / (l.length : ℚ)) := by
    rw [hperm.sum_eq, hlen]
  unfold percentileSpec computePercentiles
  rw [if_neg hlen0]
  dsimp only
  refine ⟨_, rfl, ?_, ?_, ?_, ?_, ?_, ?_, ?_, ?_, ?_, ?_, ?_, ?_, ?_, ?_, ?_, ?_, ?_, ?_, ?_, ?_⟩
  · exact e50
  · exact e75
  · exact e95
  · exact e99
  · rfl
  · show (sortedAsc l).getD ((sortedAsc l).length - 1) 0 = _
    rw [hlen]
  · exact emean
  · exact hlen
  · show (sortedAsc l).getD 0 0 ≤ nearestRank (sortedAsc l) 50
    rw [e50]; exact echain1
  · show nearestRank (sortedAsc l) 50 ≤ nearestRank (sortedAsc l) 75
    rw [e50, e75]; exact echain2
  · show nearestRank (sortedAsc l) 75 ≤ nearestRank (sortedAsc l) 95
    rw [e75, e95]; exact echain3
  · show nearestRank (sortedAsc l) 95 ≤ nearestRank (sortedAsc l) 99
    rw [e95, e99]; exact echain4
  · show nearestRank (sortedAsc l) 99 ≤ (sortedAsc l).getD ((sortedAsc l).length - 1) 0
    rw [e99, hlen]; exact echain5
  · show nearestRank (sortedAsc l) 50 ∈ l
    rw [e50]; exact memAt _ (clampIdx_lt 50 _ hpos)
  · show nearestRank (sortedAsc l) 75 ∈ l
    rw [e75]; exact memAt _ (clampIdx_lt 75 _ hpos)
  · show nearestRank (sortedAsc l) 95 ∈ l
    rw [e95]; exact memAt _ (clampIdx_lt 95 _ hpos)
  · show nearestRank (sortedAsc l) 99 ∈ l
    rw [e99]; exact memAt _ (clampIdx_lt 99 _ hpos)
  · show (sortedAsc l).getD 0 0 ∈ l
    exact memAt 0 hpos
  · show (sortedAsc l).getD ((sortedAsc l).length - 1) 0 ∈ l
    rw [hlen]; exact memAt _ (by omega)
  · intro d hd
    subst hd
    have hm50 : nearestRank (sortedAsc [d]) 50 = d :=
      List.mem_singleton.mp (by rw [e50]; exact memAt _ (clampIdx_lt 50 _ hpos))
    have hm75 : nearestRank (sortedAsc [d]) 75 = d :=
      List.mem_singleton.mp (by rw [e75]; exact memAt _ (clampIdx_lt 75 _ hpos))
    have hm95 : nearestRank (sortedAsc [d]) 95 = d :=
      List.mem_singleton.mp (by rw [e95]; exact memAt _ (clampIdx_lt 95 _ hpos))
    have hm99 : nearestRank (sortedAsc [d]) 99 = d :=
      List.mem_singleton.mp (by rw [e99]; exact memAt _ (clampIdx_lt 99 _ hpos))
    have hmmin : (sortedAsc [d]).getD 0 0 = d :=
      List.mem_singleton.mp (memAt 0 hpos)
    have hmmax : (sortedAsc [d]).getD ((sortedAsc [d]).length - 1) 0 = d :=
      List.mem_singleton.mp (by rw [hlen]; exact memAt _ (by omega))
    refine ⟨hm50, hm75, hm95, hm99, hmmin, hmmax, ?_⟩
    show round (((sortedAsc [d]).sum : ℚ) / (((sortedAsc [d]).length : ℕ) : ℚ)) = (d : ℤ)
    rw [emean]
    simp [round_natCast]

/-- Witness for C1: the contract instantiated at `[3, 1, 2]`. -/
theorem claim_C1_percentiles_witness :
    ([3, 1, 2] : List ℕ) ≠ [] ∧ percentileSpec [3, 1, 2] :=
  ⟨by decide, claim_C1_percentiles [3, 1, 2] (by decide)⟩


/-- The model identifiers in order of first occurrence (the insertion
order of the counting `Map`'s keys). -/
def firstOccs (ms : List String) : List String :=
  ms.foldl (fun acc m => if m ∈ acc then acc else acc ++ [m]) []

theorem countsOf_append (ms : List String) (a : String) :
    countsOf (ms ++ [a]) = bump (countsOf ms) a := by
  unfold countsOf
  rw [List.foldl_append]
  rfl

theorem firstOccs_append (ms : List String) (a : String) :
    firstOccs (ms ++ [a]) =
      if a ∈ firstOccs ms then firstOccs ms else firstOccs ms ++ [a] := by
  unfold firstOccs
  rw [List.foldl_append]
  rfl

theorem firstOccs_mem (ms : List String) : ∀ m, m ∈ firstOccs ms ↔ m ∈ ms := by
  induction ms using List.reverseRecOn with
  | nil => simp [firstOccs]
  | append_singleton ms a ih =>
    intro m
    rw [firstOccs_append]
    by_cases h : a ∈ firstOccs ms
    · rw [if_pos h]
      simp only [List.mem_append, List.mem_singleton, ih]
      constructor
      · intro hm; exact Or.inl hm
      · rintro (hm | rfl)
        · exact hm
        · exact (ih m).mp h
    · rw [if_neg h]
      simp [ih]

theorem firstOccs_nodup (ms : List String) : (firstOccs ms).Nodup := by
  induction ms using List.reverseRecOn with
  | nil => simp [firstOccs]
  | append_singleton ms a ih =>
    rw [firstOccs_append]
    by_cases h : a ∈ firstOccs ms
    · rw [if_pos h]; exact ih
    · rw [if_neg h]
      exact List.Nodup.append ih (List.nodup_singleton a) (by simpa using h)

theorem bump_keys (l : List (String × ℕ)) (a : String) :
    (bump l a).map Prod.fst =
      if a ∈ l.map Prod.fst then l.map Prod.fst else l.map Prod.fst ++ [a] := by
  induction l with
  | nil => simp [bump]
  | cons e t ih =>
    obtain ⟨k, c⟩ := e
    by_cases h : k = a
    · subst h
      simp [bump]
    · rw [show bump ((k, c) :: t) a = (k, c) :: bump t a by rw [bump, if_neg h]]
      simp only [List.map_cons, ih]
      by_cases ht : a ∈ t.map Prod.fst
      · rw [if_pos ht, if_pos (by simp [ht])]
      · rw [if_neg ht, if_neg (by simp [Ne.symm h, ht])]
        rfl

theorem bump_counts (l : List (String × ℕ)) (f : String → ℕ) (a : String)
    (hnd : (l.map Prod.fst).Nodup)
    (h : ∀ e ∈ l, e.2 = f e.1) (ha : a ∉ l.map Prod.fst → f a = 0) :
    ∀ e ∈ bump l a, e.2 = if e.1 = a then f e.1 + 1 else f e.1 := by
  induction l with
  | nil =>
    intro e he
    simp [bump] at he
    subst he
    simp [ha (by simp)]
  | cons e0 t ih =>
    obtain ⟨k, c⟩ := e0
    have hnd2 : (t.map Prod.fst).Nodup := (List.nodup_cons.mp (by simpa using hnd)).2
    have hknotmem : k ∉ t.map Prod.fst := (List.nodup_cons.mp (by simpa using hnd)).1
    intro e he
    by_cases hk : k = a
    · rw [bump, if_pos hk] at he
      rcases List.mem_cons.mp he with rfl | hmem
      · have hc := h (k, c) (List.mem_cons_self _ _)
        simp only at hc
        simp only [if_pos hk]
        omega
      · have hne : e.1 ≠ a := by
          rw [← hk]
          intro hh
          exact hknotmem (hh ▸ List.mem_map_of_mem Prod.fst hmem)
        rw [if_neg hne]
        exact h e (List.mem_cons_of_mem _ hmem)
    · rw [bump, if_neg hk] at he
      rcases List.mem_cons.mp he with rfl | hmem
      · rw [if_neg (show ¬((k, c).1 = a) from hk)]
        exact h (k, c) (List.mem_cons_self _ _)
      · exact ih hnd2 (fun x hx => h x (List.mem_cons_of_mem _ hx))
          (fun hx => ha (by
            simp only [List.map_cons, List.mem_cons]
            rintro (hh | hh)
            · exact hk hh.symm
            · exact hx hh)) e hmem


theorem countsOf_keys (ms : List String) :
    (countsOf ms).map Prod.fst = firstOccs ms := by
  induction ms using List.reverseRecOn with
  | nil => rfl
  | append_singleton ms a ih =>
    rw [countsOf_append, firstOccs_append, bump_keys, ih]

theorem countsOf_counts (ms : List String) :
    ∀ e ∈ countsOf ms, e.2 = ms.count e.1 := by
  induction ms using List.reverseRecOn with
  | nil => intro e he; simp [countsOf] at he
  | append_singleton ms a ih =>
    rw [countsOf_append]
    intro e he
    have hres := bump_counts (countsOf ms) (fun k => ms.count k) a
      (by rw [countsOf_keys]; exact firstOccs_nodup ms) ih
      (by
        rw [countsOf_keys]
        intro hx
        exact List.count_eq_zero.mpr (fun hmem => hx ((firstOccs_mem ms a).mpr hmem)))
      e he
    rw [hres]
    by_cases hea : e.1 = a
    · rw [if_pos hea, hea]
      simp [List.count_append]
    · rw [if_neg hea]
      simp [List.count_append, List.count_singleton, hea]

theorem countsOf_complete (ms : List String) :
    ∀ k ∈ ms, (k, ms.count k) ∈ countsOf ms := by
  intro k hk
  have hkeys : k ∈ (countsOf ms).map Prod.fst := by
    rw [countsOf_keys]
    exact (firstOccs_mem ms k).mpr hk
  obtain ⟨e, he, heq⟩ := List.mem_map.mp hkeys
  have := countsOf_counts ms e he
  have hek : e = (k, ms.count k) := by
    obtain ⟨e1, e2⟩ := e
    simp only at heq this
    rw [heq] at this ⊢
    rw [this]
  rw [← hek]
  exact he


/-- One step of the strict-maximum scan over the counting map. -/
def pickStep (b p : String × ℕ) : String × ℕ := if b.2 < p.2 then p else b

/-- The entry the dominant-model scan settles on, starting from `b`. -/
def pickBest (b : String × ℕ) (t : List (String × ℕ)) : String × ℕ :=
  t.foldl pickStep b

theorem pickGo_eq_pickBest (t : List (String × ℕ)) :
    ∀ b : String × ℕ, pickGo (some b.1) b.2 t = some (pickBest b t).1 := by
  induction t with
  | nil => intro b; rfl
  | cons p t ih =>
    intro b
    rw [pickGo, pickBest, List.foldl_cons]
    by_cases h : b.2 < p.2
    · rw [if_pos h, show pickStep b p = p from if_pos h]
      exact ih p
    · rw [if_neg h, show pickStep b p = b from if_neg h]
      exact ih b

theorem pickBest_mem (t : List (String × ℕ)) :
    ∀ b, pickBest b t ∈ b :: t := by
  induction t with
  | nil => intro b; simp [pickBest]
  | cons p t ih =>
    intro b
    rw [pickBest, List.foldl_cons]
    have := ih (pickStep b p)
    rcases List.mem_cons.mp this with h | h
    · rw [pickBest] at h
      rw [h]
      unfold pickStep
      split
      · simp
      · simp
    · right
      exact List.mem_cons_of_mem _ h

theorem pickBest_max (t : List (String × ℕ)) :
    ∀ b, ∀ p ∈ b :: t, p.2 ≤ (pickBest b t).2 := by
  induction t with
  | nil =>
    intro b p hp
    simp at hp
    simp [pickBest, hp]
  | cons q t ih =>
    intro b p hp
    rw [pickBest, List.foldl_cons]
    have hstep1 : b.2 ≤ (pickStep b q).2 := by
      unfold pickStep
      split
      · omega
      · omega
    have hstep2 : q.2 ≤ (pickStep b q).2 := by
      unfold pickStep
      split
      · omega
      · omega
    have hhead := ih (pickStep b q) (pickStep b q) (List.mem_cons_self _ _)
    rcases List.mem_cons.mp hp with rfl | hmem
    · calc p.2 ≤ (pickStep p q).2 := hstep1
        _ ≤ (pickBest (pickStep p q) t).2 := hhead
    · rcases List.mem_cons.mp hmem with rfl | hmem2
      · calc p.2 ≤ (pickStep b p).2 := hstep2
          _ ≤ (pickBest (pickStep b p) t).2 := hhead
      · exact ih (pickStep b q) p (List.mem_cons_of_mem _ hmem2)

theorem pickBest_first (t : List (String × ℕ)) :
    ∀ b, ∃ l1 l2, b :: t = l1 ++ pickBest b t :: l2 ∧
      ∀ p ∈ l1, p.2 < (pickBest b t).2 := by
  induction t with
  | nil =>
    intro b
    exact ⟨[], [], by simp [pickBest], by simp⟩
  | cons q t ih =>
    intro b
    rw [pickBest, List.foldl_cons]
    by_cases h : b.2 < q.2
    · rw [show pickStep b q = q from if_pos h]
      obtain ⟨l1, l2, heq, hlt⟩ := ih q
      rw [pickBest] at heq hlt
      refine ⟨b :: l1, l2, by rw [List.cons_append, ← heq], ?_⟩
      intro p hp
      rcases List.mem_cons.mp hp with rfl | hmem
      · calc p.2 < q.2 := h
          _ ≤ (List.foldl pickStep q t).2 := pickBest_max t q q (List.mem_cons_self _ _)
      · exact hlt p hmem
    · rw [show pickStep b q = b from if_neg h]
      obtain ⟨l1, l2, heq, hlt⟩ := ih b
      rw [pickBest] at heq hlt
      cases l1 with
      | nil =>
        simp only [List.nil_append] at heq
        injection heq with h1 h2
        refine ⟨[], q :: l2, ?_, by simp⟩
        rw [List.nil_append, ← h1, h2]
      | cons x l1t =>
        rw [List.cons_append] at heq
        injection heq with h1 h2
        refine ⟨b :: q :: l1t, l2, ?_, ?_⟩
        · rw [List.cons_append, List.cons_append, ← h2]
        · intro p hp
          have hb : b.2 < (List.foldl pickStep b t).2 := by
            have := hlt x (List.mem_cons_self _ _)
            rw [← h1] at this
            exact this
          rcases List.mem_cons.mp hp with rfl | hp2
          · exact hb
          rcases List.mem_cons.mp hp2 with rfl | hp3
          · omega
          · exact hlt p (List.mem_cons_of_mem _ hp3)


theorem firstOccs_order (ms : List String) :
    ∀ s1 m s2, firstOccs ms = s1 ++ m :: s2 → ∀ k ∈ s2, ms.indexOf m ≤ ms.indexOf k := by
  induction ms using List.reverseRecOn with
  | nil =>
    intro s1 m s2 heq
    exact absurd heq (by simp [firstOccs])
  | append_singleton ms a ih =>
    intro s1 m s2 heq
    rw [firstOccs_append] at heq
    by_cases h : a ∈ firstOccs ms
    · rw [if_pos h] at heq
      intro k hk
      have hm : m ∈ ms := (firstOccs_mem ms m).mp (heq ▸ (by simp))
      have hkms : k ∈ ms := (firstOccs_mem ms k).mp (heq ▸ (by simp [hk]))
      rw [List.indexOf_append_of_mem hm, List.indexOf_append_of_mem hkms]
      exact ih s1 m s2 heq k hk
    · rw [if_neg h] at heq
      have hanotms : a ∉ ms := fun hh => h ((firstOccs_mem ms a).mpr hh)
      rcases List.eq_nil_or_concat s2 with rfl | ⟨s2p, x, rfl⟩
      · intro k hk
        exact absurd hk (List.not_mem_nil k)
      · simp only [List.concat_eq_append] at heq ⊢
        have heq2 : firstOccs ms ++ [a] = (s1 ++ m :: s2p) ++ [x] := by
          rw [heq]
          simp
        obtain ⟨hfo, hax⟩ := List.append_inj' heq2 (by rfl)
        have haxv : a = x := by simpa using hax
        have hmfo : m ∈ firstOccs ms := hfo ▸ (by simp)
        have hmms : m ∈ ms := (firstOccs_mem _ _).mp hmfo
        intro k hk
        rcases List.mem_append.mp hk with hk2 | hk1
        · have hkfo : k ∈ firstOccs ms := hfo ▸ (by simp [hk2])
          have hkms := (firstOccs_mem _ _).mp hkfo
          rw [List.indexOf_append_of_mem hmms, List.indexOf_append_of_mem hkms]
          exact ih s1 m s2p hfo k hk2
        · have hka : k = a := by
            have : k = x := by simpa using hk1
            rw [this, haxv]
          subst hka
          rw [List.indexOf_append_of_mem hmms, List.indexOf_append_of_not_mem hanotms]
          have := List.indexOf_lt_length.mpr hmms
          omega


theorem dominant_exists (ms : List String) (hne : ms ≠ []) :
    ∃ m, pickGo none 0 (countsOf ms) = some m ∧ m ∈ ms ∧
      (∀ k ∈ ms, ms.count k ≤ ms.count m) ∧
      (∀ k ∈ ms, ms.count k = ms.count m → ms.indexOf m ≤ ms.indexOf k) := by
  obtain ⟨m0, hm0⟩ : ∃ m0, m0 ∈ ms := List.exists_mem_of_ne_nil ms hne
  have hc0 := countsOf_complete ms m0 hm0
  cases hcounts : countsOf ms with
  | nil => rw [hcounts] at hc0; exact absurd hc0 (List.not_mem_nil _)
  | cons c0 t =>
    obtain ⟨k0, v0⟩ := c0
    have hc0mem : (k0, v0) ∈ countsOf ms := by rw [hcounts]; exact List.mem_cons_self _ _
    have hc0key : k0 ∈ ms := by
      have hmm : k0 ∈ (countsOf ms).map Prod.fst := List.mem_map_of_mem _ hc0mem
      rw [countsOf_keys] at hmm
      exact (firstOccs_mem _ _).mp hmm
    have hc0val : v0 = ms.count k0 := countsOf_counts ms (k0, v0) hc0mem
    have hc0pos : 0 < v0 := by
      rw [hc0val]
      exact List.count_pos_iff.mpr hc0key
    have hpick : pickGo none 0 ((k0, v0) :: t) = some (pickBest (k0, v0) t).1 := by
      rw [pickGo, if_pos hc0pos]
      exact pickGo_eq_pickBest t (k0, v0)
    have hBmem : pickBest (k0, v0) t ∈ countsOf ms := by
      rw [hcounts]
      exact pickBest_mem t (k0, v0)
    have hBkey : (pickBest (k0, v0) t).1 ∈ ms := by
      have hmm : (pickBest (k0, v0) t).1 ∈ (countsOf ms).map Prod.fst :=
        List.mem_map_of_mem _ hBmem
      rw [countsOf_keys] at hmm
      exact (firstOccs_mem _ _).mp hmm
    have hBval : (pickBest (k0, v0) t).2 = ms.count (pickBest (k0, v0) t).1 :=
      countsOf_counts ms _ hBmem
    refine ⟨(pickBest (k0, v0) t).1, hpick, hBkey, ?_, ?_⟩
    · intro k hk
      have hkentry := countsOf_complete ms k hk
      rw [hcounts] at hkentry
      have hmax := pickBest_max t (k0, v0) (k, ms.count k) hkentry
      rw [hBval] at hmax
      exact hmax
    · intro k hk hcnt
      have hkentry := countsOf_complete ms k hk
      obtain ⟨l1, l2, hdec, hlt⟩ := pickBest_first t (k0, v0)
      have hdec2 : countsOf ms = l1 ++ pickBest (k0, v0) t :: l2 := by
        rw [hcounts]
        exact hdec
      rw [hdec2] at hkentry
      rcases List.mem_append.mp hkentry with hkl1 | hkr
      · have hlt2 := hlt _ hkl1
        simp only at hlt2
        rw [hBval] at hlt2
        omega
      rcases List.mem_cons.mp hkr with hkB | hkl2
      · have hkeq : k = (pickBest (k0, v0) t).1 := by
          rw [← hkB]
        rw [hkeq]
      · have hkeys : firstOccs ms =
            l1.map Prod.fst ++ (pickBest (k0, v0) t).1 :: l2.map Prod.fst := by
          rw [← countsOf_keys, hdec2]
          simp
        have hkin : k ∈ l2.map Prod.fst := by
          have := List.mem_map_of_mem Prod.fst hkl2
          simpa using this
        exact firstOccs_order ms _ _ _ hkeys k hkin

/-- Claim C5: the dominant model `computeCost` prices with is the model
appearing most often among rows that specify one, ties broken in favor
of the model first encountered in row order, null when no row specifies
one; pricing resolves "flash"-containing identifiers to the flash tier
and everything else (null included) to the pro tier. -/
theorem claim_C5_dominant_model (rows : List LlmRow) :
    ((computeCost rows).modelUsed = dominantModel rows) ∧
    (modelsOf rows = [] → dominantModel rows = none) ∧
    (modelsOf rows ≠ [] →
      ∃ m, dominantModel rows = some m ∧ m ∈ modelsOf rows ∧
        (∀ k ∈ modelsOf rows, (modelsOf rows).count k ≤ (modelsOf rows).count m) ∧
        (∀ k ∈ modelsOf rows, (modelsOf rows).count k = (modelsOf rows).count m →
          (modelsOf rows).indexOf m ≤ (modelsOf rows).indexOf k)) ∧
    ((computeCost rows).inputCostUsd =
      roundUsd (((estimateTokens (sumPromptChars rows) : ℕ) : ℚ) / 1000000 *
        (pricingFor (dominantModel rows)).inputPer1M)) ∧
    (pricingFor none = proPricing) ∧
    (∀ m : String, containsFlash m = true → pricingFor (some m) = flashPricing) ∧
    (∀ m : String, containsFlash m = false → pricingFor (some m) = proPricing) := by
  refine ⟨rfl, ?_, ?_, rfl, rfl, ?_, ?_⟩
  · intro h
    unfold dominantModel
    rw [h]
    rfl
  · intro h
    exact dominant_exists (modelsOf rows) h
  · intro m hm
    simp only [pricingFor]
    have hne : m ≠ "" := by
      intro he
      rw [he] at hm
      exact absurd hm (by decide)
    rw [if_neg hne, if_pos hm]
  · intro m hm
    simp only [pricingFor]
    by_cases he : m = ""
    · rw [if_pos he]
    · rw [if_neg he, if_neg (by simp [hm])]

/-- Rows with a first-encountered tie between two models. -/
def rowsTie : List LlmRow :=
  [{ prompt_chars := none, response_chars := none, model := some "gemini-a" },
   { prompt_chars := none, response_chars := none, model := some "gemini-b" },
   { prompt_chars := none, response_chars := none, model := some "gemini-b" },
   { prompt_chars := none, response_chars := none, model := some "gemini-a" }]

/-- Witness for C5: on a 2-2 tie, the first-encountered model wins. -/
theorem claim_C5_dominant_model_witness :
    modelsOf rowsTie ≠ [] ∧ dominantModel rowsTie = some "gemini-a" ∧
    (∃ m, dominantModel rowsTie = some m ∧ m ∈ modelsOf rowsTie ∧
      (∀ k ∈ modelsOf rowsTie, (modelsOf rowsTie).count k ≤ (modelsOf rowsTie).count m) ∧
      (∀ k ∈ modelsOf rowsTie, (modelsOf rowsTie).count k = (modelsOf rowsTie).count m →
        (modelsOf rowsTie).indexOf m ≤ (modelsOf rowsTie).indexOf k)) :=
  ⟨by decide, by decide, (claim_C5_dominant_model rowsTie).2.2.1 (by decide)⟩


end Obs
